import Mathlib

set_option maxRecDepth 100000

/-!
Verification of the cryptojacking detection-coordination pipeline
(`modelo_ML/eve_analyzer.py` and `modelo_ML/pipeline_monitor.py`).

The Python code is embedded shallowly: every dictionary-based event record
becomes a structure of optional fields (`None` ≈ absent key, each access site
applies the same default as the corresponding `dict.get` call), mutable
instance state (`generated_rules`, `seen_patterns`, `rule_counter`) becomes an
explicitly threaded `AnalyzerState`, and Python `for` loops with `break`
become structural recursions that stop under the same condition.
-/

namespace CryptoPipeline

/-! ### Python string primitives -/

/-- `charsHasPrefix needle hay`: `needle` is a prefix of `hay` (over char lists). -/
def charsHasPrefix : List Char → List Char → Bool
  | [], _ => true
  | _ :: _, [] => false
  | n :: ns, h :: hs => n = h && charsHasPrefix ns hs

/-- `charsContains needle hay`: `needle` occurs contiguously inside `hay`. -/
def charsContains (needle : List Char) : List Char → Bool
  | [] => charsHasPrefix needle []
  | h :: hs => charsHasPrefix needle (h :: hs) || charsContains needle hs

/-- Python `needle in hay` for strings (contiguous substring test). -/
def pyIn (needle hay : String) : Bool :=
  charsContains needle.data hay.data

/-- Python `str.lower()`: per-character ASCII lowercasing
(`String.toLower` restated over the character list so that it reduces). -/
def pyLower (s : String) : String :=
  ⟨s.data.map Char.toLower⟩

/-- Python `str.upper()`. -/
def pyUpper (s : String) : String :=
  ⟨s.data.map Char.toUpper⟩

/-- Python `str.replace(c, r)` for a single-character pattern `c`:
every occurrence of `c` is expanded to `r`. -/
def pyReplaceChar (c : Char) (r : List Char) (s : List Char) : List Char :=
  s.flatMap (fun x => if x = c then r else [x])

/-- `value.replace('"', '\\"').replace(';', '\\;')` — the escaping applied in
`_create_mining_user_agent_rule` (line 331) and `_create_mining_path_rule`
(line 357) of eve_analyzer.py. -/
def escapeContent (s : String) : String :=
  ⟨pyReplaceChar ';' ['\\', ';'] (pyReplaceChar '"' ['\\', '"'] s.data)⟩

/-- Insertion into an ascending list; Python `sorted` on ints. -/
def insertAsc (n : Nat) : List Nat → List Nat
  | [] => [n]
  | m :: ms => if n ≤ m then n :: m :: ms else m :: insertAsc n ms

/-- Python `sorted(ports)` for a collection of ints. -/
def sortNats (l : List Nat) : List Nat :=
  l.foldr insertAsc []

/-! ### Event records (eve.json) — §3 of the spec, consumed by EVEAnalyzer.

Each field is optional: `none` models an absent dictionary key, and each
access below applies exactly the default of the `.get` call at that source
line. -/

structure HttpData where
  hostname : Option String := none
  url : Option String := none
  http_user_agent : Option String := none
  deriving Repr, DecidableEq

structure FlowData where
  bytes_toserver : Option Nat := none
  bytes_toclient : Option Nat := none
  deriving Repr, DecidableEq

structure DnsAnswer where
  rdata : Option String := none
  deriving Repr, DecidableEq

structure DnsData where
  rrtype : Option String := none
  answers : Option (List DnsAnswer) := none
  deriving Repr, DecidableEq

structure TlsData where
  sni : Option String := none
  deriving Repr, DecidableEq

structure Event where
  event_type : Option String := none
  dest_ip : Option String := none
  dest_port : Option Nat := none
  proto : Option String := none
  http : Option HttpData := none
  flow : Option FlowData := none
  dns : Option DnsData := none
  tls : Option TlsData := none
  deriving Repr, DecidableEq

/-- `event.get('event_type', 'unknown')`. -/
def Event.getEventType (e : Event) : String :=
  e.event_type.getD "unknown"

/-- Rule record produced by the synthesizer (eve_analyzer.py, `_create_*`). -/
structure Rule where
  vendor : String
  sid : Nat
  name : String
  body : String
  pattern : String
  tags : List String
  enabled : Bool
  deriving Repr, DecidableEq

/-! ### Indicator sets (class constants of `EVEAnalyzer`) -/

def MINING_POOLS : List String :=
  ["pool.minexmr.com", "pool.supportxmr.com", "pool.hashvault.pro",
   "xmrpool.eu", "monero.hashvault.pro", "minexmr.com",
   "pool.cryptonote.social", "pool.nimiq.com", "ethpool.org",
   "ethermine.org", "f2pool.com", "nanopool.org"]

def MINING_USER_AGENTS : List String :=
  ["xmrig", "xmr-stak", "cpuminer", "minerd", "ccminer",
   "cudaminer", "ethminer", "claymore", "phoenixminer",
   "nbminer", "trex", "lolminer", "teamredminer"]

def MINING_PATHS : List String :=
  ["/api/v1/work", "/api/v1/submit", "/api/v1/job",
   "/stratum", "/mining", "/pool", "/submit", "/work",
   "/getwork", "/getjob", "/login", "/subscribe"]

def SUSPICIOUS_PORTS : List Nat :=
  [3333, 4444, 5555, 8080, 8888, 9999, 14444, 14433]

/-- Constructor parameters of `EVEAnalyzer.__init__`. -/
structure EVEAnalyzer where
  base_sid : Nat := 2000000
  max_rules : Nat := 10
  deriving Repr, DecidableEq

/-- `_is_mining_pool`: some known pool name is a substring of the
lower-cased hostname. -/
def is_mining_pool (hostname : String) : Bool :=
  MINING_POOLS.any (fun pool => pyIn pool (pyLower hostname))

/-- `_is_mining_user_agent`. -/
def is_mining_user_agent (user_agent : String) : Bool :=
  MINING_USER_AGENTS.any (fun agent => pyIn agent (pyLower user_agent))

/-- `_is_mining_path`. -/
def is_mining_path (url : String) : Bool :=
  MINING_PATHS.any (fun path => pyIn path (pyLower url))

/-! ### Rule synthesizers (`_create_*` of eve_analyzer.py)

In the source each creator performs `self.rule_counter += 1;
sid = self.base_sid + self.rule_counter`.  Here the caller passes the
already-incremented counter; a `none` result (possible only for the pool and
path creators, which return `None` *before* the increment) leaves the
caller's counter untouched, exactly as in the source. -/

/-- `event.get('dest_ip', 'any')`. -/
def destIpStr (e : Event) : String :=
  e.dest_ip.getD "any"

/-- `event.get('dest_port', 'any')` rendered into the f-string. -/
def destPortStr (e : Event) : String :=
  match e.dest_port with
  | some p => toString p
  | none => "any"

/-- `_create_mining_pool_rule` (lines 292-316).  Note: the hostname is
interpolated into the body *without* escaping. -/
def create_mining_pool_rule (a : EVEAnalyzer) (counter : Nat) (hostname : String)
    (events : List Event) : Option Rule :=
  match events with
  | [] => none
  | first_event :: _ =>
    let dest_ip := destIpStr first_event
    let dest_port := destPortStr first_event
    let proto := first_event.proto.getD "TCP"
    let sid := a.base_sid + counter
    let rule_body := "alert " ++ proto ++ " any any -> " ++ dest_ip ++ " " ++ dest_port ++
      " (msg:\"Cryptojacking: Conexión a pool de minería " ++ hostname ++
      "\"; flow:established,to_server; content:\"" ++ hostname ++
      "\"; http_host; sid:" ++ toString sid ++ "; rev:1;)"
    some { vendor := "suricata", sid := sid,
           name := "Cryptojacking: Pool de minería " ++ hostname,
           body := rule_body, pattern := hostname,
           tags := ["auto-generated", "cryptojacking", "mining-pool"],
           enabled := true }

/-- `_create_mining_user_agent_rule` (lines 318-343); the user agent is
escaped before interpolation into the content clause. -/
def create_mining_user_agent_rule (a : EVEAnalyzer) (counter : Nat)
    (user_agent : String) (_count : Nat) : Option Rule :=
  let miner_name :=
    match MINING_USER_AGENTS.find? (fun agent => pyIn agent (pyLower user_agent)) with
    | some agent => pyUpper agent
    | none => "Unknown"
  let sid := a.base_sid + counter
  let user_agent_escaped := escapeContent user_agent
  let rule_body := "alert http any any -> any any (msg:\"Cryptojacking: User agent de minero detectado - " ++
    miner_name ++ "\"; flow:established,to_server; content:\"" ++ user_agent_escaped ++
    "\"; http_user_agent; sid:" ++ toString sid ++ "; rev:1;)"
  some { vendor := "suricata", sid := sid,
         name := "Cryptojacking: Minero " ++ miner_name ++ " detectado",
         body := rule_body, pattern := user_agent,
         tags := ["auto-generated", "cryptojacking", "miner-detection"],
         enabled := true }

/-- `_create_mining_path_rule` (lines 345-369); the URL is escaped in the
content clause but interpolated raw into the msg clause. -/
def create_mining_path_rule (a : EVEAnalyzer) (counter : Nat) (url : String)
    (events : List Event) : Option Rule :=
  match events with
  | [] => none
  | first_event :: _ =>
    let proto := first_event.proto.getD "TCP"
    let sid := a.base_sid + counter
    let url_escaped := escapeContent url
    let rule_body := "alert " ++ proto ++ " any any -> any any (msg:\"Cryptojacking: Endpoint de minería detectado - " ++
      url ++ "\"; flow:established,to_server; content:\"" ++ url_escaped ++
      "\"; http_uri; sid:" ++ toString sid ++ "; rev:1;)"
    some { vendor := "suricata", sid := sid,
           name := "Cryptojacking: Endpoint de minería " ++ url,
           body := rule_body, pattern := url,
           tags := ["auto-generated", "cryptojacking", "mining-endpoint"],
           enabled := true }

/-- `_create_high_volume_rule` (lines 371-390). -/
def create_high_volume_rule (a : EVEAnalyzer) (counter : Nat) (event : Event)
    (total_bytes : Nat) : Option Rule :=
  let dest_ip := destIpStr event
  let dest_port := destPortStr event
  let proto := event.proto.getD "TCP"
  let sid := a.base_sid + counter
  let rule_body := "alert " ++ proto ++ " any any -> " ++ dest_ip ++ " " ++ dest_port ++
    " (msg:\"Cryptojacking: Tráfico de alto volumen sospechoso (" ++ toString total_bytes ++
    " bytes)\"; flow:established,to_server; threshold:type limit, track by_src, count 5, seconds 60; sid:" ++
    toString sid ++ "; rev:1;)"
  some { vendor := "suricata", sid := sid,
         name := "Cryptojacking: Tráfico sospechoso alto volumen a " ++ dest_ip ++ ":" ++ dest_port,
         body := rule_body, pattern := dest_ip,
         tags := ["auto-generated", "cryptojacking", "high-volume"],
         enabled := true }

/-- `_create_dns_mining_rule` (lines 392-407). -/
def create_dns_mining_rule (a : EVEAnalyzer) (counter : Nat) (_event : Event)
    (rdata : String) : Option Rule :=
  let sid := a.base_sid + counter
  let rule_body := "alert dns any any -> any 53 (msg:\"Cryptojacking: Consulta DNS a pool de minería " ++
    rdata ++ "\"; dns_query; content:\"" ++ rdata ++ "\"; sid:" ++ toString sid ++ "; rev:1;)"
  some { vendor := "suricata", sid := sid,
         name := "Cryptojacking: DNS a pool de minería " ++ rdata,
         body := rule_body, pattern := rdata,
         tags := ["auto-generated", "cryptojacking", "dns-mining"],
         enabled := true }

/-- `event.get('dest_port', 443)` rendered into the f-string. -/
def destPort443Str (e : Event) : String :=
  match e.dest_port with
  | some p => toString p
  | none => "443"

/-- `_create_tls_mining_rule` (lines 409-427). -/
def create_tls_mining_rule (a : EVEAnalyzer) (counter : Nat) (event : Event)
    (sni : String) : Option Rule :=
  let dest_ip := destIpStr event
  let dest_port := destPort443Str event
  let sid := a.base_sid + counter
  let rule_body := "alert tls any any -> " ++ dest_ip ++ " " ++ dest_port ++
    " (msg:\"Cryptojacking: SNI de pool de minería " ++ sni ++
    "\"; tls_sni; content:\"" ++ sni ++ "\"; sid:" ++ toString sid ++ "; rev:1;)"
  some { vendor := "suricata", sid := sid,
         name := "Cryptojacking: TLS SNI a pool de minería " ++ sni,
         body := rule_body, pattern := sni,
         tags := ["auto-generated", "cryptojacking", "tls-mining"],
         enabled := true }

/-- `_create_suspicious_ip_rule` (lines 429-446). -/
def create_suspicious_ip_rule (a : EVEAnalyzer) (counter : Nat) (ip : String)
    (connection_count : Nat) (ports : List Nat) : Option Rule :=
  let ports_str := String.intercalate "," ((sortNats ports).map toString)
  let sid := a.base_sid + counter
  let rule_body := "alert tcp any any -> " ++ ip ++
    " any (msg:\"Cryptojacking: Múltiples conexiones sospechosas a " ++ ip ++
    " (puertos: " ++ ports_str ++ ")\"; flow:established,to_server; threshold:type limit, track by_src, count " ++
    toString connection_count ++ ", seconds 60; sid:" ++ toString sid ++ "; rev:1;)"
  some { vendor := "suricata", sid := sid,
         name := "Cryptojacking: IP sospechosa " ++ ip ++ " con " ++ toString connection_count ++ " conexiones",
         body := rule_body, pattern := ip,
         tags := ["auto-generated", "cryptojacking", "suspicious-ip"],
         enabled := true }

/-! ### Analyzer state and detector phases

The three mutable fields `self.generated_rules`, `self.seen_patterns`,
`self.rule_counter` (all reset at the top of `analyze_events`) become one
threaded record.  Each generated rule is stored together with the
`pattern_key` string that is added to `seen_patterns` at the same statement
(e.g. lines 135-140); projecting the second components recovers the source's
`generated_rules` list exactly. -/

structure AnalyzerState where
  generated_rules : List (String × Rule)
  seen_patterns : List String
  rule_counter : Nat
  deriving Repr, DecidableEq

def AnalyzerState.initial : AnalyzerState := ⟨[], [], 0⟩

/-- The common append site: `rule = self._create_*(...)` (with the counter
pre-incremented inside the creator), and, `if rule:`, both
`self.generated_rules.append(rule)` and `self.seen_patterns.add(pattern_key)`. -/
def add_rule (st : AnalyzerState) (key : String) (mk : Nat → Option Rule) : AnalyzerState :=
  match mk (st.rule_counter + 1) with
  | some rule =>
    ⟨st.generated_rules ++ [(key, rule)], st.seen_patterns ++ [key], st.rule_counter + 1⟩
  | none => st

/-- `for x in xs: if len(self.generated_rules) >= self.max_rules: break; body`. -/
def forCapped (a : EVEAnalyzer) (f : AnalyzerState → α → AnalyzerState) :
    AnalyzerState → List α → AnalyzerState
  | st, [] => st
  | st, x :: xs =>
    if a.max_rules ≤ st.generated_rules.length then st
    else forCapped a f (f st x) xs

/-- `defaultdict(list)` keyed by strings, in insertion order, appending. -/
def listAppendAt (key : String) (v : α) : List (String × List α) → List (String × List α)
  | [] => [(key, [v])]
  | (k, vs) :: rest =>
    if k = key then (k, vs ++ [v]) :: rest else (k, vs) :: listAppendAt key v rest

/-- `defaultdict(int)` keyed by strings, `d[k] += 1`. -/
def countAt (key : String) : List (String × Nat) → List (String × Nat)
  | [] => [(key, 1)]
  | (k, n) :: rest =>
    if k = key then (k, n + 1) :: rest else (k, n) :: countAt key rest

/-- `defaultdict(set)` keyed by strings, `d[k].add(p)`. -/
def setAddAt (key : String) (p : Nat) : List (String × List Nat) → List (String × List Nat)
  | [] => [(key, [p])]
  | (k, ps) :: rest =>
    if k = key then (k, if p ∈ ps then ps else ps ++ [p]) :: rest
    else (k, ps) :: setAddAt key p rest

/-- The three dictionaries built by the first loop of `_analyze_http_events`
(lines 112-128). -/
structure HttpDicts where
  hostname_patterns : List (String × List Event)
  url_patterns : List (String × List Event)
  user_agents : List (String × Nat)
  deriving Repr

def build_http_dicts (http_events : List Event) : HttpDicts :=
  http_events.foldl (fun d event =>
    let http_data := event.http.getD {}
    let hostname := http_data.hostname.getD ""
    let url := http_data.url.getD ""
    let user_agent := http_data.http_user_agent.getD ""
    let d1 := if hostname ≠ "" then
      { d with hostname_patterns := listAppendAt hostname event d.hostname_patterns } else d
    let d2 := if url ≠ "" then
      { d1 with url_patterns := listAppendAt url event d1.url_patterns } else d1
    if user_agent ≠ "" then
      { d2 with user_agents := countAt (pyLower user_agent) d2.user_agents } else d2)
    ⟨[], [], []⟩

/-- Body of the pool-hostname loop of `_analyze_http_events` (lines 131-140). -/
def http_pool_step (a : EVEAnalyzer) (st : AnalyzerState)
    (hv : String × List Event) : AnalyzerState :=
  if is_mining_pool hv.1 then
    let key := "pool:" ++ hv.1
    if st.seen_patterns.contains key then st
    else add_rule st key (fun c => create_mining_pool_rule a c hv.1 hv.2)
  else st

/-- Body of the user-agent loop of `_analyze_http_events` (lines 143-152). -/
def http_ua_step (a : EVEAnalyzer) (st : AnalyzerState)
    (uc : String × Nat) : AnalyzerState :=
  if is_mining_user_agent uc.1 then
    let key := "ua:" ++ pyLower uc.1
    if st.seen_patterns.contains key then st
    else add_rule st key (fun c => create_mining_user_agent_rule a c uc.1 uc.2)
  else st

/-- Body of the URL loop of `_analyze_http_events` (lines 155-164). -/
def http_url_step (a : EVEAnalyzer) (st : AnalyzerState)
    (uv : String × List Event) : AnalyzerState :=
  if is_mining_path uv.1 then
    let key := "url:" ++ uv.1
    if st.seen_patterns.contains key then st
    else add_rule st key (fun c => create_mining_path_rule a c uv.1 uv.2)
  else st

/-- `_analyze_http_events` (lines 107-164): pool-hostname loop, then
user-agent loop, then mining-path loop, each capped. -/
def analyze_http_events (a : EVEAnalyzer) (st : AnalyzerState)
    (http_events : List Event) : AnalyzerState :=
  if http_events.isEmpty then st
  else
    let dicts := build_http_dicts http_events
    let st1 := forCapped a (http_pool_step a) st dicts.hostname_patterns
    let st2 := forCapped a (http_ua_step a) st1 dicts.user_agents
    forCapped a (http_url_step a) st2 dicts.url_patterns

/-- First loop of `_analyze_flow_events` (lines 173-188): build the
`high_volume_patterns` dict (the cap break reads the — unchanged —
`generated_rules`, exactly as in the source). -/
def flow_collect (a : EVEAnalyzer) (st : AnalyzerState) :
    List Event → List (String × (Event × Nat)) → List (String × (Event × Nat))
  | [], acc => acc
  | event :: rest, acc =>
    if a.max_rules ≤ st.generated_rules.length then acc
    else
      let flow_data := event.flow.getD {}
      let bytes_toserver := flow_data.bytes_toserver.getD 0
      let bytes_toclient := flow_data.bytes_toclient.getD 0
      let total_bytes := bytes_toserver + bytes_toclient
      let dest_ip := event.dest_ip.getD ""
      let dest_port := event.dest_port.getD 0
      if 100000 < total_bytes ∧ dest_port ∈ SUSPICIOUS_PORTS then
        let key := "flow:" ++ dest_ip ++ ":" ++ toString dest_port
        if st.seen_patterns.contains key ∨ acc.any (fun p => p.1 = key) then
          flow_collect a st rest acc
        else flow_collect a st rest (acc ++ [(key, (event, total_bytes))])
      else flow_collect a st rest acc

/-- Body of the second loop of `_analyze_flow_events` (lines 191-197): one
rule per collected `high_volume_patterns` entry (the key was already checked
fresh at collection time and `seen_patterns` has not changed since). -/
def flow_rule_step (a : EVEAnalyzer) (st : AnalyzerState)
    (kv : String × (Event × Nat)) : AnalyzerState :=
  add_rule st kv.1 (fun c => create_high_volume_rule a c kv.2.1 kv.2.2)

/-- `_analyze_flow_events` (lines 166-197). -/
def analyze_flow_events (a : EVEAnalyzer) (st : AnalyzerState)
    (flow_events : List Event) : AnalyzerState :=
  if flow_events.isEmpty then st
  else
    let high_volume_patterns := flow_collect a st flow_events []
    forCapped a (flow_rule_step a) st high_volume_patterns

/-- Inner loop of `_analyze_dns_events` over `answers` (lines 214-223);
carries the local `seen_domains` set. -/
def dns_answers_loop (a : EVEAnalyzer) (event : Event) :
    AnalyzerState → List String → List DnsAnswer → AnalyzerState × List String
  | st, seen_domains, [] => (st, seen_domains)
  | st, seen_domains, answer :: rest =>
    let rdata := answer.rdata.getD ""
    if is_mining_pool rdata ∧ rdata ∉ seen_domains then
      let key := "dns:" ++ rdata
      if st.seen_patterns.contains key then
        dns_answers_loop a event st seen_domains rest
      else
        dns_answers_loop a event
          (add_rule st key (fun c => create_dns_mining_rule a c event rdata))
          (seen_domains ++ [rdata]) rest
    else dns_answers_loop a event st seen_domains rest

/-- Outer loop of `_analyze_dns_events` (lines 206-223), capped per event. -/
def dns_events_loop (a : EVEAnalyzer) :
    AnalyzerState → List String → List Event → AnalyzerState
  | st, _, [] => st
  | st, seen_domains, event :: rest =>
    if a.max_rules ≤ st.generated_rules.length then st
    else
      let dns_data := event.dns.getD {}
      let rrtype := dns_data.rrtype.getD ""
      if rrtype = "A" ∨ rrtype = "AAAA" then
        let answers := (dns_data.answers.getD [])
        let p := dns_answers_loop a event st seen_domains answers
        dns_events_loop a p.1 p.2 rest
      else dns_events_loop a st seen_domains rest

/-- `_analyze_dns_events` (lines 199-223). -/
def analyze_dns_events (a : EVEAnalyzer) (st : AnalyzerState)
    (dns_events : List Event) : AnalyzerState :=
  if dns_events.isEmpty then st
  else dns_events_loop a st [] dns_events

/-- Body of the loop of `_analyze_tls_events` (lines 231-243). -/
def tls_step (a : EVEAnalyzer) (st : AnalyzerState) (event : Event) :
    AnalyzerState :=
  let tls_data := event.tls.getD {}
  let sni := tls_data.sni.getD ""
  if sni ≠ "" ∧ is_mining_pool sni then
    let key := "tls:" ++ sni
    if st.seen_patterns.contains key then st
    else add_rule st key (fun c => create_tls_mining_rule a c event sni)
  else st

/-- `_analyze_tls_events` (lines 225-243). -/
def analyze_tls_events (a : EVEAnalyzer) (st : AnalyzerState)
    (tls_events : List Event) : AnalyzerState :=
  if tls_events.isEmpty then st
  else forCapped a (tls_step a) st tls_events

/-- `_analyze_alert_events` (lines 245-249) only logs; no state change. -/
def analyze_alert_events (st : AnalyzerState) (_alert_events : List Event) :
    AnalyzerState :=
  st

/-- The `ip_connections` / `ip_ports` dictionaries of
`_analyze_cross_patterns` (lines 254-263). -/
def build_cross_dicts (events : List Event) :
    List (String × Nat) × List (String × List Nat) :=
  events.foldl (fun d event =>
    let dest_ip := event.dest_ip.getD ""
    let dest_port := event.dest_port.getD 0
    if dest_ip ≠ "" ∧ dest_port ≠ 0 then
      (countAt dest_ip d.1, setAddAt dest_ip dest_port d.2)
    else d) ([], [])

/-- `ip_ports[ip]` lookup. -/
def lookupPorts (ip : String) (d : List (String × List Nat)) : List Nat :=
  match d.find? (fun kv => kv.1 = ip) with
  | some kv => kv.2
  | none => []

/-- Body of the loop of `_analyze_cross_patterns` (lines 266-275): a
candidate for `ip` exactly when it has more than 10 connections and at least
one of its destination ports is suspicious. -/
def cross_step (a : EVEAnalyzer) (ip_ports : List (String × List Nat))
    (st : AnalyzerState) (ic : String × Nat) : AnalyzerState :=
  let ports := lookupPorts ic.1 ip_ports
  if 10 < ic.2 ∧ ports.any (fun p => decide (p ∈ SUSPICIOUS_PORTS)) then
    let key := "suspicious:" ++ ic.1
    if st.seen_patterns.contains key then st
    else add_rule st key (fun c => create_suspicious_ip_rule a c ic.1 ic.2 ports)
  else st

/-- `_analyze_cross_patterns` (lines 251-275). -/
def analyze_cross_patterns (a : EVEAnalyzer) (st : AnalyzerState)
    (events : List Event) : AnalyzerState :=
  let dicts := build_cross_dicts events
  forCapped a (cross_step a dicts.2) st dicts.1

/-- `events_by_type[t]` — grouping preserves event order, so the per-type
lists are the type-filtered sublists. -/
def eventsOfType (t : String) (events : List Event) : List Event :=
  events.filter (fun e => e.getEventType = t)

/-- `if len(self.generated_rules) < self.max_rules: <run phase>` — the guard
placed before each detector phase after the HTTP one (lines 84-96). -/
def capGuard (a : EVEAnalyzer) (phase : AnalyzerState → AnalyzerState)
    (st : AnalyzerState) : AnalyzerState :=
  if st.generated_rules.length < a.max_rules then phase st else st

/-- The detector cascade of `analyze_events` (lines 80-97): each phase after
the HTTP one runs only while the rule count is below `max_rules` (the alert
phase always runs but generates nothing).  Starts from the freshly reset
state of lines 65-66 and 78. -/
def analyze_phases (a : EVEAnalyzer) (events : List Event) : AnalyzerState :=
  let st1 := analyze_http_events a AnalyzerState.initial (eventsOfType "http" events)
  let st2 := capGuard a (fun st => analyze_flow_events a st (eventsOfType "flow" events)) st1
  let st3 := capGuard a (fun st => analyze_dns_events a st (eventsOfType "dns" events)) st2
  let st4 := capGuard a (fun st => analyze_tls_events a st (eventsOfType "tls" events)) st3
  let st5 := analyze_alert_events st4 (eventsOfType "alert" events)
  capGuard a (fun st => analyze_cross_patterns a st events) st5

/-- `analyze_events` (lines 52-105) with each generated rule paired with its
admission pattern key (see `AnalyzerState`): empty input returns immediately
(line 62), and the final list is truncated to `max_rules` (lines 100-102). -/
def analyze_events_keyed (a : EVEAnalyzer) (events : List Event) :
    List (String × Rule) :=
  if events.isEmpty then []
  else
    let st6 := analyze_phases a events
    if a.max_rules < st6.generated_rules.length then
      st6.generated_rules.take a.max_rules
    else st6.generated_rules

/-- `analyze_events` as the source returns it: the list of rules. -/
def analyze_events (a : EVEAnalyzer) (events : List Event) : List Rule :=
  (analyze_events_keyed a events).map Prod.snd

/-- `get_rules_text` (lines 448-473); `now_iso` stands for
`datetime.now().isoformat()`. -/
def get_rules_text (now_iso : String) (rules : List Rule) : String :=
  if rules.isEmpty then ""
  else
    let header := ["# Reglas generadas automáticamente por EVE Analyzer",
                   "# Generadas el: " ++ now_iso,
                   "# Total de reglas: " ++ toString rules.length, ""]
    let ruleLines := rules.flatMap (fun r =>
      ["# " ++ r.name] ++ (if r.body ≠ "" then [r.body] else []) ++ [""])
    String.intercalate "\n" (header ++ ruleLines)

/-! ### Concrete scenario inputs used by the theorems below -/

/-- An HTTP event carrying only a hostname, as in the spec's scenarios. -/
def mkHttpHostEvent (h : String) : Event :=
  { event_type := some "http", dest_ip := some "10.0.0.1",
    dest_port := some 3333, proto := some "TCP",
    http := some { hostname := some h } }

/-- A hostname that `_is_mining_pool` accepts (it contains
`pool.minexmr.com`) and that carries a quote and a semicolon. -/
def c1_hostname : String := "pool.minexmr.com\";evil"

def c1_event : Event := mkHttpHostEvent c1_hostname

/-- The body `_create_mining_pool_rule` produces for `c1_event`: the raw
hostname sits inside the content clause and the msg clause. -/
def c1_body : String :=
  "alert TCP any any -> 10.0.0.1 3333 (msg:\"Cryptojacking: Conexión a pool de minería pool.minexmr.com\";evil\"; flow:established,to_server; content:\"pool.minexmr.com\";evil\"; http_host; sid:2000001; rev:1;)"

/-- A miner user agent carrying a quote and a semicolon. -/
def c1_user_agent : String := "xmrig\";6.0"

def c1_ua_event : Event :=
  { event_type := some "http",
    http := some { http_user_agent := some c1_user_agent } }

/-- The body `_create_mining_user_agent_rule` produces for `c1_ua_event`:
here the quote and semicolon are backslash-escaped. -/
def c1_ua_body : String :=
  "alert http any any -> any any (msg:\"Cryptojacking: User agent de minero detectado - XMRIG\"; flow:established,to_server; content:\"xmrig\\\"\\;6.0\"; http_user_agent; sid:2000001; rev:1;)"

/-- Five HTTP events with five distinct matching pool hostnames (C2). -/
def c2_events : List Event :=
  [mkHttpHostEvent "pool.minexmr.com", mkHttpHostEvent "pool.supportxmr.com",
   mkHttpHostEvent "xmrpool.eu", mkHttpHostEvent "ethermine.org",
   mkHttpHostEvent "nanopool.org"]

def c7_ip : String := "203.0.113.7"

/-- A flow event to `c7_ip` on the given port, below the 100000-byte
threshold (C7). -/
def mkFlowEvent (port : Nat) : Event :=
  { event_type := some "flow", dest_ip := some c7_ip, dest_port := some port,
    proto := some "TCP",
    flow := some { bytes_toserver := some 500, bytes_toclient := some 400 } }

/-- Eleven flow events to one IP on eleven distinct ports: the eight
suspicious ports plus three harmless ones (the suspicious-port set has only
eight members, so eleven distinct suspicious ports do not exist). -/
def c7_events : List Event :=
  (SUSPICIOUS_PORTS ++ [80, 443, 1000]).map mkFlowEvent

/-- The rule the run on `c1_event` yields (sid base+1). -/
def c10_rule : Rule :=
  { vendor := "suricata", sid := 2000001,
    name := "Cryptojacking: Pool de minería pool.minexmr.com",
    body := "alert TCP any any -> 10.0.0.1 3333 (msg:\"Cryptojacking: Conexión a pool de minería pool.minexmr.com\"; flow:established,to_server; content:\"pool.minexmr.com\"; http_host; sid:2000001; rev:1;)",
    pattern := "pool.minexmr.com",
    tags := ["auto-generated", "cryptojacking", "mining-pool"],
    enabled := true }

/-! ### `_generate_synthetic_events_from_metrics` (pipeline_monitor.py 257-314)

Only `bytes_sent` / `bytes_recv` of the classifier metrics snapshot are read
by the modelled functions; the remaining metrics (cpu, ram, process count,
xmrig flag) are never consumed and are omitted.  The synthetic events carry
further keys (`src_ip`, `src_port`, `flow_id`, `app_proto`, `timestamp`,
HTTP method/status/length, packet counters) that no modelled consumer reads;
`Event` keeps exactly the consumed keys. -/

structure Metrics where
  bytes_sent : Nat
  bytes_recv : Nat
  deriving Repr, DecidableEq

def generate_synthetic_events_from_metrics (m : Metrics) : List Event :=
  (if 10000 < m.bytes_sent ∨ 10000 < m.bytes_recv then
    [{ event_type := some "flow", dest_ip := some "192.168.100.30",
       dest_port := some 8080, proto := some "TCP",
       flow := some { bytes_toserver := some m.bytes_sent,
                      bytes_toclient := some m.bytes_recv } }]
   else []) ++
  (if 20000 < m.bytes_sent then
    [{ event_type := some "http", dest_ip := some "192.168.100.30",
       dest_port := some 8080, proto := some "TCP",
       http := some { hostname := some "pool-api.example.com",
                      url := some "/api/v1/submit",
                      http_user_agent := some "Mozilla/5.0 (compatible; MinerBot/1.0)" } }]
   else [])

/-- The flow event the fallback emits for `bytes_sent = 50000`. -/
def c9_flow_event (recv : Nat) : Event :=
  { event_type := some "flow", dest_ip := some "192.168.100.30",
    dest_port := some 8080, proto := some "TCP",
    flow := some { bytes_toserver := some 50000, bytes_toclient := some recv } }

/-- The http event the fallback emits for `bytes_sent = 50000`. -/
def c9_http_event : Event :=
  { event_type := some "http", dest_ip := some "192.168.100.30",
    dest_port := some 8080, proto := some "TCP",
    http := some { hostname := some "pool-api.example.com",
                   url := some "/api/v1/submit",
                   http_user_agent := some "Mozilla/5.0 (compatible; MinerBot/1.0)" } }

/-! ### JSON values and a model of `json.loads`

pipeline_monitor.py reads eve.json through `json.load` / `json.loads`.  The
model below covers the JSON subset the telemetry actually uses (objects,
arrays, strings with simple escapes, integer numbers, booleans, null);
fractional numbers are outside the model.  A parse returns `none` exactly
where `json.loads` raises `JSONDecodeError` (including trailing garbage such
as the comma after an array element when a pretty-printed array is read line
by line). -/

inductive Json where
  | null
  | bool (b : Bool)
  | num (n : Int)
  | str (s : String)
  | arr (elems : List Json)
  | obj (fields : List (String × Json))
  deriving Repr

def Json.isObj : Json → Bool
  | Json.obj _ => true
  | _ => false

/-- `event.get(key)` on a dict (`none` both for a missing key and for a
non-dict, which callers handle per site). -/
def Json.getField (j : Json) (key : String) : Option Json :=
  match j with
  | Json.obj fields => (fields.find? (fun kv => kv.1 = key)).map Prod.snd
  | _ => none

def isWsChar (c : Char) : Bool :=
  c = ' ' ∨ c = '\n' ∨ c = '\t' ∨ c = '\r'

def skipWs : List Char → List Char
  | [] => []
  | c :: cs => if isWsChar c then skipWs cs else c :: cs

/-- JSON string body after the opening quote; handles the `\"`, `\\`, `\n`,
`\t` escapes used here. -/
def parseStringChars : Nat → List Char → Option (List Char × List Char)
  | 0, _ => none
  | _, [] => none
  | fuel + 1, c :: cs =>
    if c = '"' then some ([], cs)
    else if c = '\\' then
      match cs with
      | [] => none
      | e :: cs2 =>
        let dec := if e = 'n' then '\n' else if e = 't' then '\t' else e
        match parseStringChars fuel cs2 with
        | some p => some (dec :: p.1, p.2)
        | none => none
    else
      match parseStringChars fuel cs with
      | some p => some (c :: p.1, p.2)
      | none => none

def isDigitChar (c : Char) : Bool :=
  '0' ≤ c ∧ c ≤ '9'

def parseNatAux : List Char → Nat → Nat × List Char
  | [], acc => (acc, [])
  | c :: cs, acc =>
    if isDigitChar c then parseNatAux cs (acc * 10 + (c.toNat - '0'.toNat))
    else (acc, c :: cs)

def parseNatNum : List Char → Option (Nat × List Char)
  | [] => none
  | c :: cs => if isDigitChar c then some (parseNatAux (c :: cs) 0) else none

mutual

def parseValue : Nat → List Char → Option (Json × List Char)
  | 0, _ => none
  | fuel + 1, l =>
    match skipWs l with
    | '"' :: rest =>
      match parseStringChars (rest.length + 1) rest with
      | some p => some (Json.str ⟨p.1⟩, p.2)
      | none => none
    | '[' :: rest => parseArrayRest fuel rest []
    | '{' :: rest => parseObjRest fuel rest []
    | l2 =>
      if charsHasPrefix "true".data l2 then some (Json.bool true, l2.drop 4)
      else if charsHasPrefix "false".data l2 then some (Json.bool false, l2.drop 5)
      else if charsHasPrefix "null".data l2 then some (Json.null, l2.drop 4)
      else
        match l2 with
        | '-' :: rest =>
          match parseNatNum rest with
          | some p => some (Json.num (-(p.1 : Int)), p.2)
          | none => none
        | _ =>
          match parseNatNum l2 with
          | some p => some (Json.num (p.1 : Int), p.2)
          | none => none

def parseArrayRest : Nat → List Char → List Json → Option (Json × List Char)
  | 0, _, _ => none
  | fuel + 1, l, acc =>
    match skipWs l with
    | ']' :: rest => if acc.isEmpty then some (Json.arr [], rest) else none
    | l2 =>
      match parseValue fuel l2 with
      | none => none
      | some (v, r1) =>
        match skipWs r1 with
        | ',' :: r2 => parseArrayRest fuel r2 (acc ++ [v])
        | ']' :: r2 => some (Json.arr (acc ++ [v]), r2)
        | _ => none

def parseObjRest : Nat → List Char → List (String × Json) → Option (Json × List Char)
  | 0, _, _ => none
  | fuel + 1, l, acc =>
    match skipWs l with
    | '}' :: rest => if acc.isEmpty then some (Json.obj [], rest) else none
    | '"' :: rest =>
      match parseStringChars (rest.length + 1) rest with
      | none => none
      | some (key, r1) =>
        match skipWs r1 with
        | ':' :: r2 =>
          match parseValue fuel r2 with
          | none => none
          | some (v, r3) =>
            match skipWs r3 with
            | ',' :: r4 => parseObjRest fuel r4 (acc ++ [(⟨key⟩, v)])
            | '}' :: r4 => some (Json.obj (acc ++ [(⟨key⟩, v)]), r4)
            | _ => none
        | _ => none
    | _ => none

end

/-- `json.loads`: a full-document parse, rejecting trailing garbage. -/
def pyJsonLoads (s : String) : Option Json :=
  match parseValue (s.length + 1) s.data with
  | some (j, rest) => if (skipWs rest).isEmpty then some j else none
  | none => none

/-! ### Python string/file helpers for the monitor -/

/-- File-line iteration: split on newline (the trailing empty piece is
discarded by each caller's `if line:` check). -/
def splitLinesAux : List Char → List Char → List String
  | [], cur => [⟨cur.reverse⟩]
  | c :: cs, cur =>
    if c = '\n' then ⟨cur.reverse⟩ :: splitLinesAux cs [] else splitLinesAux cs (c :: cur)

def pyLines (s : String) : List String :=
  splitLinesAux s.data []

def dropLeadingWs : List Char → List Char
  | [] => []
  | c :: cs => if isWsChar c then dropLeadingWs cs else c :: cs

/-- Python `str.strip()`. -/
def pyStrip (s : String) : String :=
  ⟨(dropLeadingWs (dropLeadingWs s.data.reverse)).reverse⟩

/-- Python `str.startswith(p)`. -/
def pyStartsWith (p s : String) : Bool :=
  charsHasPrefix p.data s.data

/-! ### Timestamps

Times are modelled in whole epoch seconds (`Int`); the telemetry's
timestamps are second-granular in every scenario considered.
`datetime.fromisoformat` is modelled for the offset-free
`YYYY-MM-DDTHH:MM:SS` shape (the `'Z' → '+00:00'` replacement the source
performs first is applied, after which an offset-carrying string falls
outside the model and parses as `none`). -/

def digit2 (a b : Char) : Nat :=
  (a.toNat - '0'.toNat) * 10 + (b.toNat - '0'.toNat)

/-- Days since 1970-01-01 of a civil date (valid for years ≥ 1583). -/
def daysFromCivil (y m d : Nat) : Int :=
  let yr : Int := if m ≤ 2 then (y : Int) - 1 else (y : Int)
  let era : Int := yr / 400
  let yoe : Int := yr - era * 400
  let mp : Int := ((m : Int) + 9) % 12
  let doy : Int := (153 * mp + 2) / 5 + (d : Int) - 1
  let doe : Int := yoe * 365 + yoe / 4 - yoe / 100 + doy
  era * 146097 + doe - 719468

def pyFromIso (s : String) : Option Int :=
  match s.data with
  | [y1, y2, y3, y4, '-', m1, m2, '-', d1, d2, 'T', h1, h2, ':', mi1, mi2, ':', s1, s2] =>
    if [y1, y2, y3, y4, m1, m2, d1, d2, h1, h2, mi1, mi2, s1, s2].all isDigitChar then
      let y := digit2 y1 y2 * 100 + digit2 y3 y4
      let mo := digit2 m1 m2
      let da := digit2 d1 d2
      some (86400 * daysFromCivil y mo da +
        ((digit2 h1 h2 * 3600 + digit2 mi1 mi2 * 60 + digit2 s1 s2 : Nat) : Int))
    else none
  | _ => none

/-- `ts.replace('Z', '+00:00')` then `fromisoformat`. -/
def pyFromIsoZ (s : String) : Option Int :=
  pyFromIso ⟨pyReplaceChar 'Z' "+00:00".data s.data⟩

/-! ### `filter_suricata_events` (pipeline_monitor.py 120-185)

The file is `none` when missing.  Whole-document parse first (an array is
taken as is, any other value is wrapped in a singleton list), falling back
to line-by-line parsing where malformed lines are skipped.  A parsed event
that is not a dict makes the filtering loop raise `AttributeError`, which the
enclosing `except` turns into `[]`. -/

def DEFAULT_EVENT_TYPES : List String :=
  ["alert", "dns", "http", "tls", "flow"]

def filter_suricata_events (file : Option String) (event_types : List String) :
    List Json :=
  match file with
  | none => []
  | some content =>
    let events :=
      match pyJsonLoads content with
      | some (Json.arr xs) => xs
      | some j => [j]
      | none =>
        ((pyLines content).map pyStrip).filterMap
          (fun line => if line = "" then none else pyJsonLoads line)
    if events.all Json.isObj then
      events.filter (fun e =>
        match e.getField "event_type" with
        | some (Json.str t) => event_types.contains t
        | some _ => false
        | none => event_types.contains "unknown")
    else []

/-! ### `_read_all_recent_events` (pipeline_monitor.py 187-255)

Reads the log strictly as JSONL (no whole-document attempt): the last
`max_events` non-empty lines, newest first, each parsed individually;
undecodable lines are skipped; an event whose parsed timestamp is older than
the window is dropped, and an event with no parseable timestamp is kept
(fail open); the kept events come back in chronological order.  A parsed
line that is not iterable (number/bool/null) makes `'timestamp' in event`
raise outside the per-line handler, so the whole read returns `[]`. -/

inductive LineRead where
  | skip
  | keep (e : Json)
  | drop
  | err

def readRecentLine (time_threshold : Int) (line : String) : LineRead :=
  match pyJsonLoads line with
  | none => LineRead.skip
  | some event =>
    match event with
    | Json.num _ => LineRead.err
    | Json.bool _ => LineRead.err
    | Json.null => LineRead.err
    | Json.str _ => LineRead.keep event
    | Json.arr _ => LineRead.keep event
    | Json.obj _ =>
      match event.getField "timestamp" with
      | none => LineRead.keep event
      | some (Json.str s) =>
        match pyFromIsoZ s with
        | some t => if time_threshold ≤ t then LineRead.keep event else LineRead.drop
        | none => LineRead.keep event
      | some (Json.num n) =>
        if time_threshold ≤ n then LineRead.keep event else LineRead.drop
      | some (Json.bool b) =>
        if time_threshold ≤ (if b then (1 : Int) else 0) then LineRead.keep event
        else LineRead.drop
      | some _ => LineRead.keep event

/-- The loop of lines 216-236 over the chosen lines (newest first), followed
by the final `events.reverse()`: kept events in chronological order, or `[]`
when a line raised past the per-line handler. -/
def readKeeps (time_threshold : Int) (lastN : List String) : List Json :=
  let reads := lastN.reverse.map (readRecentLine time_threshold)
  if reads.any (fun r => match r with | LineRead.err => true | _ => false) then []
  else
    (reads.filterMap (fun r =>
      match r with | LineRead.keep e => some e | _ => none)).reverse

def read_all_recent_events (file : Option String) (now : Int)
    (max_events : Nat) (time_window_minutes : Nat) : List Json :=
  match file with
  | none => []
  | some content =>
    let time_threshold := now - 60 * (time_window_minutes : Int)
    let all_lines := ((pyLines content).map pyStrip).filter (fun l => l ≠ "")
    let lastN := if max_events = 0 then all_lines
      else all_lines.drop (all_lines.length - max_events)
    readKeeps time_threshold lastN

/-! ### `check_suricata_alerts` (pipeline_monitor.py 316-387)

Scans the log as JSONL, short-circuiting on the first recent
crypto-keyword alert.  A non-dict parsed line (or a non-dict `alert` field)
raises `AttributeError`, which only the outermost handler catches — the scan
then returns `False`.  An ISO timestamp that fails to parse is replaced by
the current time (fail open); a zero epoch timestamp is falsy and is
skipped. -/

def crypto_keywords : List String :=
  ["mining", "crypto", "monero", "xmr", "stratum",
   "pool", "minexmr", "supportxmr", "hashvault"]

inductive LineCheck where
  | matched
  | nomatch
  | err

/-- Rendering of an alert field into the signature/category f-string
(string, number, bool and null renderings; container values are outside the
model and render as ""). -/
def jsonFieldText (j : Json) (key : String) : String :=
  match j.getField key with
  | some (Json.str s) => s
  | some (Json.num n) => toString n
  | some (Json.bool true) => "True"
  | some (Json.bool false) => "False"
  | some Json.null => "None"
  | _ => ""

/-- `alert_data = event.get('alert', {})` and the keyword test over
signature/category/msg; a present non-dict `alert` value raises. -/
def alertKeywordCheck (event : Json) : LineCheck :=
  match (event.getField "alert").getD (Json.obj []) with
  | Json.obj afields =>
    let alert_data := Json.obj afields
    let signature := jsonFieldText alert_data "signature"
    let category := jsonFieldText alert_data "category"
    let msg := jsonFieldText alert_data "signature"
    let alert_text := pyLower (signature ++ " " ++ category ++ " " ++ msg)
    if crypto_keywords.any (fun keyword => pyIn keyword alert_text) then
      LineCheck.matched
    else LineCheck.nomatch
  | _ => LineCheck.err

/-- `event.get('event_type') == 'alert'` (a non-string value is unequal). -/
def isAlertType (event : Json) : Bool :=
  match event.getField "event_type" with
  | some (Json.str t) => t = "alert"
  | _ => false

def checkAlertEvent (now time_threshold : Int) (event : Json) : LineCheck :=
  match event with
  | Json.obj _ =>
    if isAlertType event then
      let event_time : Option Int :=
        match event.getField "timestamp" with
        | none => none
        | some (Json.str s) =>
          match pyFromIsoZ s with
          | some t => some t
          | none => some now
        | some (Json.num n) => some n
        | some (Json.bool b) => some (if b then 1 else 0)
        | some _ => none
      match event_time with
      | some t =>
        if t ≠ 0 ∧ time_threshold ≤ t then alertKeywordCheck event
        else LineCheck.nomatch
      | none => LineCheck.nomatch
    else LineCheck.nomatch
  | _ => LineCheck.err

def checkAlertLine (now time_threshold : Int) (line : String) : LineCheck :=
  match pyJsonLoads line with
  | none => LineCheck.nomatch
  | some event => checkAlertEvent now time_threshold event

def checkScan (now time_threshold : Int) : List String → Bool
  | [] => false
  | line :: rest =>
    if line = "" then checkScan now time_threshold rest
    else
      match checkAlertLine now time_threshold line with
      | LineCheck.matched => true
      | LineCheck.nomatch => checkScan now time_threshold rest
      | LineCheck.err => false

def check_suricata_alerts (file : Option String) (now : Int)
    (time_window_seconds : Int) : Bool :=
  match file with
  | none => false
  | some content =>
    checkScan now (now - time_window_seconds) ((pyLines content).map pyStrip)

/-! ### `send_rules_to_backend` (pipeline_monitor.py 492-530)

The HTTP layer is abstracted as `resp : Nat → Option Nat` — the status of
the POST for the i-th rule, `none` for a `RequestException`.  The loop never
aborts: a failed or rejected rule only skips the counter increment. -/

def sendLoop (resp : Nat → Option Nat) : Nat → List Rule → Nat
  | _, [] => 0
  | i, _ :: rest =>
    match resp i with
    | some status =>
      (if status = 200 ∨ status = 201 then 1 else 0) + sendLoop resp (i + 1) rest
    | none => sendLoop resp (i + 1) rest

def send_rules_to_backend (resp : Nat → Option Nat) (parsed_rules : List Rule) :
    Nat :=
  if parsed_rules.isEmpty then 0
  else sendLoop resp 0 parsed_rules

/-- The spec's success criterion, as the claim words it: "2xx/201". -/
def resp2xx (resp : Nat → Option Nat) (i : Nat) : Bool :=
  match resp i with
  | some status => 200 ≤ status ∧ status < 300
  | none => false

/-- The code's success criterion: status in `[200, 201]`. -/
def respOk (resp : Nat → Option Nat) (i : Nat) : Bool :=
  match resp i with
  | some status => status = 200 ∨ status = 201
  | none => false

/-! ### `handle_mining_detection` (pipeline_monitor.py 679-809) as an
effect-trace model

The cycle handler's observable effects are collected in `CycleActions`;
time, file contents, the metrics snapshot and the backend's HTTP responses
are supplied by `MonitorEnv`.  External failure modes that only change
logging (reload-chain strategies, file-permission errors) are outside the
model: writes that the control flow reaches are recorded as the text the
source would append. -/

def jsonStrOpt : Option Json → Option String
  | some (Json.str s) => some s
  | _ => none

def jsonNatOpt : Option Json → Option Nat
  | some (Json.num n) => if n < 0 then none else some n.toNat
  | _ => none

def jsonToHttp (h : Json) : HttpData :=
  { hostname := jsonStrOpt (h.getField "hostname"),
    url := jsonStrOpt (h.getField "url"),
    http_user_agent := jsonStrOpt (h.getField "http_user_agent") }

def jsonToFlow (f : Json) : FlowData :=
  { bytes_toserver := jsonNatOpt (f.getField "bytes_toserver"),
    bytes_toclient := jsonNatOpt (f.getField "bytes_toclient") }

def jsonToDns (d : Json) : DnsData :=
  { rrtype := jsonStrOpt (d.getField "rrtype"),
    answers := match d.getField "answers" with
      | some (Json.arr xs) =>
        some (xs.map (fun a => { rdata := jsonStrOpt (a.getField "rdata") }))
      | _ => none }

def jsonToTls (t : Json) : TlsData :=
  { sni := jsonStrOpt (t.getField "sni") }

/-- The typed view of a telemetry dict the analyzer consumes.  Fields of an
unexpected JSON type read as absent; in the source an ill-typed field makes
`analyze_events` raise inside `generate_rules_with_analyzer`'s `try`, which
likewise yields no rules for the cycle. -/
def jsonToEvent (j : Json) : Event :=
  { event_type := jsonStrOpt (j.getField "event_type"),
    dest_ip := jsonStrOpt (j.getField "dest_ip"),
    dest_port := jsonNatOpt (j.getField "dest_port"),
    proto := jsonStrOpt (j.getField "proto"),
    http := match j.getField "http" with
      | some (Json.obj fs) => some (jsonToHttp (Json.obj fs))
      | _ => none,
    flow := match j.getField "flow" with
      | some (Json.obj fs) => some (jsonToFlow (Json.obj fs))
      | _ => none,
    dns := match j.getField "dns" with
      | some (Json.obj fs) => some (jsonToDns (Json.obj fs))
      | _ => none,
    tls := match j.getField "tls" with
      | some (Json.obj fs) => some (jsonToTls (Json.obj fs))
      | _ => none }

structure MonitorEnv where
  eve_file : Option String
  now : Int
  now_iso : String
  now_str : String
  metrics : Metrics
  responses : Nat → Option Nat

structure MonitorState where
  detection_count : Nat
  last_detection_time : Option Int
  deriving Repr, DecidableEq

structure CycleActions where
  telemetry_read : Bool
  eve_file_created : Bool
  synthetic_used : Bool
  rules_generated : List Rule
  suricata_file_append : Option String
  backup_append : Option String
  backend_attempts : Nat
  backend_success : Nat
  deriving Repr, DecidableEq

/-- The empty effect trace: nothing read, nothing generated, nothing
written, nothing sent. -/
def noActions : CycleActions :=
  { telemetry_read := false, eve_file_created := false, synthetic_used := false,
    rules_generated := [], suricata_file_append := none, backup_append := none,
    backend_attempts := 0, backend_success := 0 }

/-- `save_rules_to_suricata_file` (lines 532-584): the appended text, `none`
when nothing is written. -/
def save_rules_to_suricata_file (now_str : String) (detection_count : Nat)
    (rules_text : String) : Option String :=
  if pyStrip rules_text = "" then none
  else
    let rule_lines := ((pyLines rules_text).map pyStrip).filter (fun line =>
      line ≠ "" ∧ (pyStartsWith "alert" line ∨ pyStartsWith "drop" line ∨
        pyStartsWith "pass" line ∨
        (pyStartsWith "#" line ∧ pyIn "regla" (pyLower line))))
    if rule_lines.isEmpty then none
    else some ("\n# Reglas generadas automáticamente - " ++ now_str ++
      "\n# Detección #" ++ toString detection_count ++ "\n" ++
      String.intercalate "\n" rule_lines ++ "\n\n")

/-- `save_rules_to_file` (lines 656-677): the backup append, `none` when
nothing is written. -/
def save_rules_to_file (now_iso : String) (detection_count : Nat)
    (rules_text : String) : Option String :=
  if pyStrip rules_text = "" then none
  else some ("\n# Reglas generadas automáticamente - " ++ now_iso ++
    "\n# Detección #" ++ toString detection_count ++ "\n\n" ++
    rules_text ++ "\n\n")

/-- `handle_mining_detection` (lines 679-809): bump the detection counter,
check coverage over a 120-second window and abort if covered; otherwise
create eve.json if missing, read recent telemetry (synthetic fallback when
empty), analyze, persist to the Suricata rule file and the backup, and post
each rule to the backend. -/
def handle_mining_detection (env : MonitorEnv) (ms : MonitorState) :
    MonitorState × CycleActions :=
  let ms2 : MonitorState :=
    { detection_count := ms.detection_count + 1,
      last_detection_time := some env.now }
  if check_suricata_alerts env.eve_file env.now 120 then
    (ms2, noActions)
  else
    let created := env.eve_file.isNone
    let eve_file2 := some (env.eve_file.getD "")
    let read_events := read_all_recent_events eve_file2 env.now 100 10
    let events :=
      if read_events.isEmpty then generate_synthetic_events_from_metrics env.metrics
      else read_events.map jsonToEvent
    let base : CycleActions :=
      { noActions with
        telemetry_read := true
        eve_file_created := created
        synthetic_used := read_events.isEmpty }
    if events.isEmpty then
      (ms2, base)
    else
      let parsed_rules := analyze_events {} events
      if parsed_rules.isEmpty then
        (ms2, base)
      else
        let rules_text := get_rules_text env.now_iso parsed_rules
        (ms2,
          { base with
            rules_generated := parsed_rules,
            suricata_file_append :=
              save_rules_to_suricata_file env.now_str ms2.detection_count rules_text,
            backup_append :=
              save_rules_to_file env.now_iso ms2.detection_count rules_text,
            backend_attempts := parsed_rules.length,
            backend_success := send_rules_to_backend env.responses parsed_rules })

/-! ### Concrete monitor scenario inputs -/

/-- A pretty-printed JSON-array telemetry log: two events over four lines.
Read line by line, only the last element (no trailing comma) parses. -/
def c4_array_content : String :=
  "[\n\x7b\"event_type\": \"http\"\x7d,\n\x7b\"event_type\": \"flow\"\x7d\n]"

def c4_http_obj : Json := Json.obj [("event_type", Json.str "http")]

def c4_flow_obj : Json := Json.obj [("event_type", Json.str "flow")]

/-- Line-delimited telemetry with a malformed middle line. -/
def c4_jsonl_content : String :=
  "\x7b\"event_type\": \"http\"\x7d\nGARBAGE\x7b\x7b\n\x7b\"event_type\": \"flow\"\x7d"

/-- An alert event as a JSON value: numeric epoch timestamp `t`, signature
`sig`. -/
def mkAlertJson (t : Int) (sig : String) : Json :=
  Json.obj [("event_type", Json.str "alert"), ("timestamp", Json.num t),
    ("alert", Json.obj [("signature", Json.str sig)])]

/-- One alert line with epoch timestamp 990 and an `xmr` signature. -/
def c5_content_in : String :=
  "\x7b\"event_type\": \"alert\", \"timestamp\": 990, \"alert\": \x7b\"signature\": \"ET POLICY XMR CoinMiner\", \"category\": \"Coin Mining\"\x7d\x7d"

/-- The same alert text with epoch timestamp 100 (outside a 60 s window at
`now = 1000`). -/
def c5_content_out : String :=
  "\x7b\"event_type\": \"alert\", \"timestamp\": 100, \"alert\": \x7b\"signature\": \"ET POLICY XMR CoinMiner\", \"category\": \"Coin Mining\"\x7d\x7d"

/-- An environment whose telemetry already carries a recent matching alert:
coverage holds at `now = 1000` in a 120 s window. -/
def c6_env : MonitorEnv :=
  { eve_file := some c5_content_in, now := 1000,
    now_iso := "2024-01-01T00:00:00", now_str := "2024-01-01 00:00:00",
    metrics := { bytes_sent := 0, bytes_recv := 0 },
    responses := fun _ => none }

/-- A log holding one lone JSON object (not an array). -/
def c4_single_obj_content : String :=
  "\x7b\"event_type\": \"http\"\x7d"

/-- A benign flow line followed by the in-window alert line. -/
def c5_content_multi : String :=
  "\x7b\"event_type\": \"flow\", \"timestamp\": 995\x7d\n" ++ c5_content_in

/-- Like `c6_env` but the only alert lies outside every relevant window, so
coverage is negative. -/
def c6_env_uncovered : MonitorEnv :=
  { eve_file := some c5_content_out, now := 1000,
    now_iso := "2024-01-01T00:00:00", now_str := "2024-01-01 00:00:00",
    metrics := { bytes_sent := 0, bytes_recv := 0 },
    responses := fun _ => none }

def c8_rule : Rule :=
  { vendor := "suricata", sid := 2000001, name := "r", body := "alert tcp",
    pattern := "p", tags := ["auto-generated"], enabled := true }

/-! ### The analyzer state only accumulates

Every loop body either leaves the state unchanged or appends one rule and
one seen key; these lemmas propagate that through each detector phase. -/

/-- `Grows st st'`: `st'` extends `st` — rules are only appended and seen
patterns are never dropped. -/
def Grows (st st' : AnalyzerState) : Prop :=
  (∃ t, st'.generated_rules = st.generated_rules ++ t) ∧
  ∀ k ∈ st.seen_patterns, k ∈ st'.seen_patterns

theorem grows_refl (st : AnalyzerState) : Grows st st :=
  ⟨⟨[], (List.append_nil _).symm⟩, fun _ h => h⟩

theorem grows_trans {s1 s2 s3 : AnalyzerState} (h1 : Grows s1 s2)
    (h2 : Grows s2 s3) : Grows s1 s3 := by
  obtain ⟨⟨t1, ht1⟩, hs1⟩ := h1
  obtain ⟨⟨t2, ht2⟩, hs2⟩ := h2
  exact ⟨⟨t1 ++ t2, by rw [ht2, ht1, List.append_assoc]⟩,
    fun k hk => hs2 k (hs1 k hk)⟩

theorem add_rule_grows (st : AnalyzerState) (key : String)
    (mk : Nat → Option Rule) : Grows st (add_rule st key mk) := by
  unfold add_rule
  cases hm : mk (st.rule_counter + 1) with
  | none => exact grows_refl st
  | some r =>
    exact ⟨⟨[(key, r)], rfl⟩, fun k hk => List.mem_append_left _ hk⟩

theorem forCapped_grows {α : Type} (a : EVEAnalyzer)
    (f : AnalyzerState → α → AnalyzerState)
    (hf : ∀ st x, Grows st (f st x)) :
    ∀ (xs : List α) (st : AnalyzerState), Grows st (forCapped a f st xs) := by
  intro xs
  induction xs with
  | nil => intro st; exact grows_refl st
  | cons x xs ih =>
    intro st
    unfold forCapped
    by_cases hc : a.max_rules ≤ st.generated_rules.length
    · simp only [hc, if_true]; exact grows_refl st
    · simp only [hc, if_false]
      exact grows_trans (hf st x) (ih (f st x))

theorem http_pool_step_grows (a : EVEAnalyzer) (st : AnalyzerState)
    (hv : String × List Event) : Grows st (http_pool_step a st hv) := by
  unfold http_pool_step
  dsimp only
  split
  · split
    · exact grows_refl st
    · exact add_rule_grows ..
  · exact grows_refl st

theorem http_ua_step_grows (a : EVEAnalyzer) (st : AnalyzerState)
    (uc : String × Nat) : Grows st (http_ua_step a st uc) := by
  unfold http_ua_step
  dsimp only
  split
  · split
    · exact grows_refl st
    · exact add_rule_grows ..
  · exact grows_refl st

theorem http_url_step_grows (a : EVEAnalyzer) (st : AnalyzerState)
    (uv : String × List Event) : Grows st (http_url_step a st uv) := by
  unfold http_url_step
  dsimp only
  split
  · split
    · exact grows_refl st
    · exact add_rule_grows ..
  · exact grows_refl st

theorem tls_step_grows (a : EVEAnalyzer) (st : AnalyzerState) (event : Event) :
    Grows st (tls_step a st event) := by
  unfold tls_step
  dsimp only
  split
  · split
    · exact grows_refl st
    · exact add_rule_grows ..
  · exact grows_refl st

theorem cross_step_grows (a : EVEAnalyzer) (d : List (String × List Nat))
    (st : AnalyzerState) (ic : String × Nat) :
    Grows st (cross_step a d st ic) := by
  unfold cross_step
  dsimp only
  split
  · split
    · exact grows_refl st
    · exact add_rule_grows ..
  · exact grows_refl st

theorem analyze_http_events_grows (a : EVEAnalyzer) (st : AnalyzerState)
    (evs : List Event) : Grows st (analyze_http_events a st evs) := by
  unfold analyze_http_events
  split
  · exact grows_refl st
  · exact grows_trans (forCapped_grows a _ (http_pool_step_grows a) _ st)
      (grows_trans (forCapped_grows a _ (http_ua_step_grows a) _ _)
        (forCapped_grows a _ (http_url_step_grows a) _ _))

theorem analyze_flow_events_grows (a : EVEAnalyzer) (st : AnalyzerState)
    (evs : List Event) : Grows st (analyze_flow_events a st evs) := by
  unfold analyze_flow_events
  split
  · exact grows_refl st
  · exact forCapped_grows a _ (fun st kv => add_rule_grows ..) _ st

theorem dns_answers_loop_grows (a : EVEAnalyzer) (event : Event) :
    ∀ (answers : List DnsAnswer) (st : AnalyzerState) (sd : List String),
      Grows st (dns_answers_loop a event st sd answers).1 := by
  intro answers
  induction answers with
  | nil => intro st sd; exact grows_refl st
  | cons ans rest ih =>
    intro st sd
    unfold dns_answers_loop
    dsimp only
    split
    · split
      · exact ih st sd
      · exact grows_trans (add_rule_grows ..) (ih _ _)
    · exact ih st sd

theorem dns_events_loop_grows (a : EVEAnalyzer) :
    ∀ (evs : List Event) (st : AnalyzerState) (sd : List String),
      Grows st (dns_events_loop a st sd evs) := by
  intro evs
  induction evs with
  | nil => intro st sd; exact grows_refl st
  | cons e rest ih =>
    intro st sd
    unfold dns_events_loop
    by_cases hc : a.max_rules ≤ st.generated_rules.length
    · simp only [hc, if_true]; exact grows_refl st
    · simp only [hc, if_false]
      split
      · exact grows_trans (dns_answers_loop_grows a e _ st sd) (ih _ _)
      · exact ih st sd

theorem analyze_dns_events_grows (a : EVEAnalyzer) (st : AnalyzerState)
    (evs : List Event) : Grows st (analyze_dns_events a st evs) := by
  unfold analyze_dns_events
  split
  · exact grows_refl st
  · exact dns_events_loop_grows a evs st []

theorem analyze_tls_events_grows (a : EVEAnalyzer) (st : AnalyzerState)
    (evs : List Event) : Grows st (analyze_tls_events a st evs) := by
  unfold analyze_tls_events
  split
  · exact grows_refl st
  · exact forCapped_grows a _ (tls_step_grows a) _ st

theorem analyze_cross_patterns_grows (a : EVEAnalyzer) (st : AnalyzerState)
    (evs : List Event) : Grows st (analyze_cross_patterns a st evs) :=
  forCapped_grows a _ (cross_step_grows a _) _ st

theorem capGuard_grows (a : EVEAnalyzer) (phase : AnalyzerState → AnalyzerState)
    (st : AnalyzerState) (h : ∀ s, Grows s (phase s)) :
    Grows st (capGuard a phase st) := by
  unfold capGuard
  split
  · exact h st
  · exact grows_refl st

/-- The cascade only extends the state produced by the HTTP phase. -/
theorem analyze_phases_grows (a : EVEAnalyzer) (events : List Event) :
    Grows (analyze_http_events a AnalyzerState.initial (eventsOfType "http" events))
      (analyze_phases a events) := by
  unfold analyze_phases analyze_alert_events
  dsimp only
  refine grows_trans (capGuard_grows a
    (fun st => analyze_flow_events a st (eventsOfType "flow" events)) _
    (fun s => analyze_flow_events_grows a s _)) ?_
  refine grows_trans (capGuard_grows a
    (fun st => analyze_dns_events a st (eventsOfType "dns" events)) _
    (fun s => analyze_dns_events_grows a s _)) ?_
  refine grows_trans (capGuard_grows a
    (fun st => analyze_tls_events a st (eventsOfType "tls" events)) _
    (fun s => analyze_tls_events_grows a s _)) ?_
  exact capGuard_grows a (fun st => analyze_cross_patterns a st events) _
    (fun s => analyze_cross_patterns_grows a s _)

/-! ### Per-pass invariant: consecutive sids and fresh keys -/

/-- Invariant maintained throughout one `analyze_events` pass: the counter
equals the number of generated rules, the sids are exactly
`base+1, …, base+n` in order, admission keys are pairwise distinct, and every
admitted key is recorded in `seen_patterns`. -/
def RulesOk (base : Nat) (st : AnalyzerState) : Prop :=
  st.rule_counter = st.generated_rules.length ∧
  st.generated_rules.map (fun p => p.2.sid)
    = List.range' (base + 1) st.generated_rules.length ∧
  (st.generated_rules.map Prod.fst).Nodup ∧
  ∀ k ∈ st.generated_rules.map Prod.fst, k ∈ st.seen_patterns

theorem rulesOk_initial (base : Nat) : RulesOk base AnalyzerState.initial := by
  refine ⟨rfl, rfl, List.nodup_nil, ?_⟩
  intro k hk
  simp [AnalyzerState.initial] at hk

/-- Where `add_rule` can put seen keys. -/
theorem add_rule_seen (st : AnalyzerState) (key : String) (mk : Nat → Option Rule) :
    ∀ k ∈ (add_rule st key mk).seen_patterns, k ∈ st.seen_patterns ∨ k = key := by
  unfold add_rule
  cases hm : mk (st.rule_counter + 1) with
  | none => exact fun k hk => Or.inl hk
  | some r =>
    intro k hk
    rcases List.mem_append.mp hk with h | h
    · exact Or.inl h
    · right; simpa using h

theorem not_mem_of_not_contains {l : List String} {k : String}
    (h : ¬ l.contains k = true) : k ∉ l :=
  fun hm => h (List.elem_iff.mpr hm)

theorem add_rule_ok {base : Nat} {st : AnalyzerState} {key : String}
    {mk : Nat → Option Rule}
    (hk : key ∉ st.seen_patterns)
    (hmk : ∀ r, mk (st.rule_counter + 1) = some r →
      r.sid = base + st.rule_counter + 1)
    (h : RulesOk base st) : RulesOk base (add_rule st key mk) := by
  obtain ⟨hc, hs, hn, hsub⟩ := h
  unfold add_rule
  cases hm : mk (st.rule_counter + 1) with
  | none => exact ⟨hc, hs, hn, hsub⟩
  | some r =>
    have hr : r.sid = (base + 1) + st.generated_rules.length := by
      have h1 := hmk r hm
      omega
    refine ⟨?_, ?_, ?_, ?_⟩
    · simp [hc]
    · simp only [List.map_append, List.map_cons, List.map_nil,
        List.length_append, List.length_cons, List.length_nil]
      rw [List.range'_concat, hs, hr]
      norm_num
    · simp only [List.map_append, List.map_cons, List.map_nil]
      rw [List.nodup_append]
      refine ⟨hn, List.nodup_singleton key, ?_⟩
      intro x hx hx2
      simp only [List.mem_cons, List.not_mem_nil, or_false] at hx2
      subst hx2
      exact hk (hsub x hx)
    · intro k hk2
      simp only [List.map_append, List.map_cons, List.map_nil] at hk2
      rcases List.mem_append.mp hk2 with h1 | h1
      · exact List.mem_append_left _ (hsub k h1)
      · simp only [List.mem_cons, List.not_mem_nil, or_false] at h1
        subst h1
        exact List.mem_append_right _ (by simp)

/-! Every creator stamps `sid = base_sid + counter` on the rule it returns. -/

theorem create_mining_pool_rule_sid {a : EVEAnalyzer} {c : Nat} {h : String}
    {evs : List Event} {r : Rule}
    (hr : create_mining_pool_rule a c h evs = some r) : r.sid = a.base_sid + c := by
  cases evs with
  | nil => simp [create_mining_pool_rule] at hr
  | cons e rest =>
    unfold create_mining_pool_rule at hr
    dsimp only at hr
    injection hr with hr
    rw [← hr]

theorem create_mining_user_agent_rule_sid {a : EVEAnalyzer} {c : Nat}
    {ua : String} {n : Nat} {r : Rule}
    (hr : create_mining_user_agent_rule a c ua n = some r) :
    r.sid = a.base_sid + c := by
  unfold create_mining_user_agent_rule at hr
  dsimp only at hr
  injection hr with hr
  rw [← hr]

theorem create_mining_path_rule_sid {a : EVEAnalyzer} {c : Nat} {u : String}
    {evs : List Event} {r : Rule}
    (hr : create_mining_path_rule a c u evs = some r) : r.sid = a.base_sid + c := by
  cases evs with
  | nil => simp [create_mining_path_rule] at hr
  | cons e rest =>
    unfold create_mining_path_rule at hr
    dsimp only at hr
    injection hr with hr
    rw [← hr]

theorem create_high_volume_rule_sid {a : EVEAnalyzer} {c : Nat} {e : Event}
    {tb : Nat} {r : Rule}
    (hr : create_high_volume_rule a c e tb = some r) : r.sid = a.base_sid + c := by
  unfold create_high_volume_rule at hr
  dsimp only at hr
  injection hr with hr
  rw [← hr]

theorem create_dns_mining_rule_sid {a : EVEAnalyzer} {c : Nat} {e : Event}
    {rd : String} {r : Rule}
    (hr : create_dns_mining_rule a c e rd = some r) : r.sid = a.base_sid + c := by
  unfold create_dns_mining_rule at hr
  dsimp only at hr
  injection hr with hr
  rw [← hr]

theorem create_tls_mining_rule_sid {a : EVEAnalyzer} {c : Nat} {e : Event}
    {sni : String} {r : Rule}
    (hr : create_tls_mining_rule a c e sni = some r) : r.sid = a.base_sid + c := by
  unfold create_tls_mining_rule at hr
  dsimp only at hr
  injection hr with hr
  rw [← hr]

theorem create_suspicious_ip_rule_sid {a : EVEAnalyzer} {c : Nat} {ip : String}
    {n : Nat} {ps : List Nat} {r : Rule}
    (hr : create_suspicious_ip_rule a c ip n ps = some r) : r.sid = a.base_sid + c := by
  unfold create_suspicious_ip_rule at hr
  dsimp only at hr
  injection hr with hr
  rw [← hr]

/-! Invariant preservation per loop body. -/

theorem guarded_add_ok {a : EVEAnalyzer} {st : AnalyzerState} {key : String}
    {mk : Nat → Option Rule}
    (hmk : ∀ r, mk (st.rule_counter + 1) = some r →
      r.sid = a.base_sid + st.rule_counter + 1)
    (h : RulesOk a.base_sid st) :
    RulesOk a.base_sid
      (if st.seen_patterns.contains key then st else add_rule st key mk) := by
  split
  · exact h
  · rename_i hc
    exact add_rule_ok (not_mem_of_not_contains hc) hmk h

theorem http_pool_step_ok {a : EVEAnalyzer} {st : AnalyzerState}
    (hv : String × List Event) (h : RulesOk a.base_sid st) :
    RulesOk a.base_sid (http_pool_step a st hv) := by
  unfold http_pool_step
  dsimp only
  split
  · exact guarded_add_ok (fun r hr => create_mining_pool_rule_sid hr) h
  · exact h

theorem http_ua_step_ok {a : EVEAnalyzer} {st : AnalyzerState}
    (uc : String × Nat) (h : RulesOk a.base_sid st) :
    RulesOk a.base_sid (http_ua_step a st uc) := by
  unfold http_ua_step
  dsimp only
  split
  · exact guarded_add_ok (fun r hr => create_mining_user_agent_rule_sid hr) h
  · exact h

theorem http_url_step_ok {a : EVEAnalyzer} {st : AnalyzerState}
    (uv : String × List Event) (h : RulesOk a.base_sid st) :
    RulesOk a.base_sid (http_url_step a st uv) := by
  unfold http_url_step
  dsimp only
  split
  · exact guarded_add_ok (fun r hr => create_mining_path_rule_sid hr) h
  · exact h

theorem tls_step_ok {a : EVEAnalyzer} {st : AnalyzerState}
    (event : Event) (h : RulesOk a.base_sid st) :
    RulesOk a.base_sid (tls_step a st event) := by
  unfold tls_step
  dsimp only
  split
  · exact guarded_add_ok (fun r hr => create_tls_mining_rule_sid hr) h
  · exact h

theorem cross_step_ok {a : EVEAnalyzer} {d : List (String × List Nat)}
    {st : AnalyzerState} (ic : String × Nat) (h : RulesOk a.base_sid st) :
    RulesOk a.base_sid (cross_step a d st ic) := by
  unfold cross_step
  dsimp only
  split
  · exact guarded_add_ok (fun r hr => create_suspicious_ip_rule_sid hr) h
  · exact h

theorem forCapped_ok {α : Type} {a : EVEAnalyzer}
    {f : AnalyzerState → α → AnalyzerState} {base : Nat}
    (hf : ∀ st x, RulesOk base st → RulesOk base (f st x)) :
    ∀ (xs : List α) (st : AnalyzerState), RulesOk base st →
      RulesOk base (forCapped a f st xs) := by
  intro xs
  induction xs with
  | nil => intro st h; exact h
  | cons x xs ih =>
    intro st h
    unfold forCapped
    split
    · exact h
    · exact ih (f st x) (hf st x h)

/-- Keys collected by the first flow loop are pairwise distinct and absent
from `seen_patterns` (both checked at collection time, lines 186-188). -/
theorem flow_collect_keys (a : EVEAnalyzer) (st : AnalyzerState) :
    ∀ (evs : List Event) (acc : List (String × (Event × Nat))),
      (acc.map Prod.fst).Nodup →
      (∀ k ∈ acc.map Prod.fst, k ∉ st.seen_patterns) →
      ((flow_collect a st evs acc).map Prod.fst).Nodup ∧
        ∀ k ∈ (flow_collect a st evs acc).map Prod.fst, k ∉ st.seen_patterns := by
  intro evs
  induction evs with
  | nil => intro acc h1 h2; exact ⟨h1, h2⟩
  | cons e rest ih =>
    intro acc h1 h2
    unfold flow_collect
    split
    · exact ⟨h1, h2⟩
    · dsimp only
      split
      · split
        · exact ih acc h1 h2
        · rename_i hfresh
          push_neg at hfresh
          obtain ⟨hseen, hany⟩ := hfresh
          have hknotacc : ∀ k2 ∈ acc.map Prod.fst,
              k2 ≠ "flow:" ++ e.dest_ip.getD "" ++ ":" ++ toString (e.dest_port.getD 0) := by
            intro k2 hk2
            simp only [List.mem_map] at hk2
            obtain ⟨p, hp, hpk⟩ := hk2
            subst hpk
            intro hcontra
            apply Bool.eq_false_iff.mp (Bool.not_eq_true _ |>.mp hany)
            exact List.any_eq_true.mpr ⟨p, hp, by simp [hcontra]⟩
          apply ih
          · rw [List.map_append, List.nodup_append]
            refine ⟨h1, by simp, ?_⟩
            intro x hx hx2
            simp only [List.map_cons, List.map_nil, List.mem_cons,
              List.not_mem_nil, or_false] at hx2
            subst hx2
            exact hknotacc _ hx rfl
          · intro k hk
            rw [List.map_append] at hk
            rcases List.mem_append.mp hk with hk | hk
            · exact h2 k hk
            · simp only [List.map_cons, List.map_nil, List.mem_cons,
                List.not_mem_nil, or_false] at hk
              subst hk
              exact not_mem_of_not_contains hseen
      · exact ih acc h1 h2

/-- Folding rule creation over a list of fresh, pairwise-distinct keys keeps
the invariant; the seen set gains only keys from that list. -/
theorem forCapped_flow_ok {a : EVEAnalyzer} :
    ∀ (kvs : List (String × (Event × Nat))) (st : AnalyzerState),
      RulesOk a.base_sid st →
      (kvs.map Prod.fst).Nodup →
      (∀ k ∈ kvs.map Prod.fst, k ∉ st.seen_patterns) →
      RulesOk a.base_sid (forCapped a (flow_rule_step a) st kvs) ∧
        ∀ k ∈ (forCapped a (flow_rule_step a) st kvs).seen_patterns,
          k ∈ st.seen_patterns ∨ k ∈ kvs.map Prod.fst := by
  intro kvs
  induction kvs with
  | nil => intro st h _ _; exact ⟨h, fun k hk => Or.inl hk⟩
  | cons kv rest ih =>
    intro st h hnd hfresh
    unfold forCapped
    split
    · exact ⟨h, fun k hk => Or.inl hk⟩
    · have hmapcons : ((kv :: rest).map Prod.fst) = kv.1 :: rest.map Prod.fst := rfl
      rw [hmapcons] at hnd hfresh
      have hk0 : kv.1 ∉ st.seen_patterns := hfresh kv.1 (by simp)
      have h' : RulesOk a.base_sid (flow_rule_step a st kv) :=
        add_rule_ok hk0 (fun r hr => create_high_volume_rule_sid hr) h
      have hseen' := add_rule_seen st kv.1
        (fun c => create_high_volume_rule a c kv.2.1 kv.2.2)
      have hnd' : (rest.map Prod.fst).Nodup := (List.nodup_cons.mp hnd).2
      have hk0nd : kv.1 ∉ rest.map Prod.fst := (List.nodup_cons.mp hnd).1
      have hfresh' : ∀ k ∈ rest.map Prod.fst,
          k ∉ (flow_rule_step a st kv).seen_patterns := by
        intro k hk hmem
        rcases hseen' k hmem with hoh | hoh
        · exact hfresh k (by simp [hk]) hoh
        · subst hoh; exact hk0nd hk
      obtain ⟨hok, hbound⟩ := ih (flow_rule_step a st kv) h' hnd' hfresh'
      refine ⟨hok, ?_⟩
      intro k hk
      rcases hbound k hk with hoh | hoh
      · rcases hseen' k hoh with hh | hh
        · exact Or.inl hh
        · exact Or.inr (by simp [hh])
      · exact Or.inr (by simp [hoh])

theorem analyze_flow_events_ok {a : EVEAnalyzer} {st : AnalyzerState}
    (evs : List Event) (h : RulesOk a.base_sid st) :
    RulesOk a.base_sid (analyze_flow_events a st evs) := by
  unfold analyze_flow_events
  split
  · exact h
  · dsimp only
    have hcol := flow_collect_keys a st evs [] (by simp) (by simp)
    exact (forCapped_flow_ok (flow_collect a st evs []) st h hcol.1 hcol.2).1

theorem dns_answers_loop_ok {a : EVEAnalyzer} (event : Event) :
    ∀ (answers : List DnsAnswer) (st : AnalyzerState) (sd : List String),
      RulesOk a.base_sid st →
      RulesOk a.base_sid (dns_answers_loop a event st sd answers).1 := by
  intro answers
  induction answers with
  | nil => intro st sd h; exact h
  | cons ans rest ih =>
    intro st sd h
    unfold dns_answers_loop
    dsimp only
    split
    · split
      · exact ih st sd h
      · rename_i hc
        exact ih _ _ (add_rule_ok (not_mem_of_not_contains hc)
          (fun r hr => create_dns_mining_rule_sid hr) h)
    · exact ih st sd h

theorem dns_events_loop_ok {a : EVEAnalyzer} :
    ∀ (evs : List Event) (st : AnalyzerState) (sd : List String),
      RulesOk a.base_sid st →
      RulesOk a.base_sid (dns_events_loop a st sd evs) := by
  intro evs
  induction evs with
  | nil => intro st sd h; exact h
  | cons e rest ih =>
    intro st sd h
    unfold dns_events_loop
    split
    · exact h
    · dsimp only
      split
      · exact ih _ _ (dns_answers_loop_ok e _ st sd h)
      · exact ih st sd h

theorem analyze_http_events_ok {a : EVEAnalyzer} {st : AnalyzerState}
    (evs : List Event) (h : RulesOk a.base_sid st) :
    RulesOk a.base_sid (analyze_http_events a st evs) := by
  unfold analyze_http_events
  split
  · exact h
  · dsimp only
    exact forCapped_ok (fun st uv h => http_url_step_ok uv h) _ _
      (forCapped_ok (fun st uc h => http_ua_step_ok uc h) _ _
        (forCapped_ok (fun st hv h => http_pool_step_ok hv h) _ _ h))

theorem analyze_dns_events_ok {a : EVEAnalyzer} {st : AnalyzerState}
    (evs : List Event) (h : RulesOk a.base_sid st) :
    RulesOk a.base_sid (analyze_dns_events a st evs) := by
  unfold analyze_dns_events
  split
  · exact h
  · exact dns_events_loop_ok evs st [] h

theorem analyze_tls_events_ok {a : EVEAnalyzer} {st : AnalyzerState}
    (evs : List Event) (h : RulesOk a.base_sid st) :
    RulesOk a.base_sid (analyze_tls_events a st evs) := by
  unfold analyze_tls_events
  split
  · exact h
  · exact forCapped_ok (fun st e h => tls_step_ok e h) _ _ h

theorem analyze_cross_patterns_ok {a : EVEAnalyzer} {st : AnalyzerState}
    (evs : List Event) (h : RulesOk a.base_sid st) :
    RulesOk a.base_sid (analyze_cross_patterns a st evs) := by
  unfold analyze_cross_patterns
  dsimp only
  exact forCapped_ok (fun st ic h => cross_step_ok ic h) _ _ h

theorem capGuard_ok {a : EVEAnalyzer} {base : Nat}
    (phase : AnalyzerState → AnalyzerState) (st : AnalyzerState)
    (hp : ∀ s, RulesOk base s → RulesOk base (phase s))
    (h : RulesOk base st) : RulesOk base (capGuard a phase st) := by
  unfold capGuard
  split
  · exact hp st h
  · exact h

/-- The whole detector cascade keeps the per-pass invariant. -/
theorem analyze_phases_ok (a : EVEAnalyzer) (events : List Event) :
    RulesOk a.base_sid (analyze_phases a events) := by
  unfold analyze_phases analyze_alert_events
  dsimp only
  exact capGuard_ok _ _ (fun s hs => analyze_cross_patterns_ok events hs)
    (capGuard_ok _ _ (fun s hs => analyze_tls_events_ok _ hs)
      (capGuard_ok _ _ (fun s hs => analyze_dns_events_ok _ hs)
        (capGuard_ok _ _ (fun s hs => analyze_flow_events_ok _ hs)
          (analyze_http_events_ok _ (rulesOk_initial a.base_sid)))))

/-! ### Results of one pass -/

/-- The returned (possibly truncated) list is a sublist of the cascade's
rule list. -/
theorem analyze_keyed_sublist (a : EVEAnalyzer) (events : List Event) :
    (analyze_events_keyed a events).Sublist (analyze_phases a events).generated_rules := by
  unfold analyze_events_keyed
  split
  · exact List.nil_sublist _
  · dsimp only
    split
    · exact List.take_sublist _ _
    · exact List.Sublist.refl _

theorem head?_take_some {α : Type} {l : List α} {n : Nat} {x : α}
    (h : (l.take n).head? = some x) : l.head? = some x := by
  cases n with
  | zero => simp at h
  | succ m =>
    cases l with
    | nil => simp at h
    | cons a t => simpa using h

theorem analyze_phases_head_sid {a : EVEAnalyzer} {events : List Event}
    {p : String × Rule}
    (h : (analyze_phases a events).generated_rules.head? = some p) :
    p.2.sid = a.base_sid + 1 := by
  have hok := (analyze_phases_ok a events).2.1
  cases hL : (analyze_phases a events).generated_rules with
  | nil => rw [hL] at h; simp at h
  | cons q tail =>
    rw [hL] at h hok
    simp only [List.head?_cons, Option.some.injEq] at h
    subst h
    simp only [List.map_cons, List.length_cons] at hok
    rw [List.range'_succ] at hok
    simp only [List.cons.injEq] at hok
    exact hok.1

/-- The first rule of any pass that emits at all carries `sid = base_sid+1`. -/
theorem analyze_head_sid {a : EVEAnalyzer} {events : List Event} {r : Rule}
    (h : (analyze_events a events).head? = some r) : r.sid = a.base_sid + 1 := by
  unfold analyze_events at h
  rw [List.head?_map] at h
  cases hk : (analyze_events_keyed a events).head? with
  | none => rw [hk] at h; simp at h
  | some p =>
    rw [hk] at h
    have hpr : p.2 = r := by
      simpa using h
    subst hpr
    unfold analyze_events_keyed at hk
    split at hk
    · simp at hk
    · dsimp only at hk
      split at hk
      · exact analyze_phases_head_sid (head?_take_some hk)
      · exact analyze_phases_head_sid hk

/-! ### The verified properties -/

/-- C1 (violated by the code): for the mining-pool hostname
`pool.minexmr.com";evil`, which contains `"` and `;`, the synthesized body
embeds the hostname twice *unescaped* (msg and content clauses) — the
escaped form does not occur in the body — while the user-agent rule for
`xmrig";6.0` does embed the escaped form in its content clause. -/
theorem claim_C1_pool_hostname_not_escaped :
    ((analyze_events {} [c1_event]).map Rule.body = [c1_body]) ∧
    pyIn ("content:\"" ++ c1_hostname ++ "\"; http_host") c1_body = true ∧
    pyIn (escapeContent c1_hostname) c1_body = false ∧
    escapeContent c1_hostname ≠ c1_hostname ∧
    ((analyze_events {} [c1_ua_event]).map Rule.body = [c1_ua_body]) ∧
    pyIn ("content:\"" ++ escapeContent c1_user_agent ++ "\"") c1_ua_body = true :=
  ⟨rfl, rfl, rfl, by decide, rfl, rfl⟩

/-- C2: `analyze_events` never returns more than `max_rules` rules, for any
analyzer parameters and any input; with `max_rules = 2` and five
independently matching hostnames, exactly 2 rules are returned. -/
theorem claim_C2_rule_cap :
    (∀ (a : EVEAnalyzer) (events : List Event),
      (analyze_events a events).length ≤ a.max_rules) ∧
    (analyze_events { base_sid := 2000000, max_rules := 2 } c2_events).length = 2 := by
  constructor
  · intro a events
    unfold analyze_events analyze_events_keyed
    rw [List.length_map]
    split
    · simp
    · dsimp only
      split
      · rename_i h
        rw [List.length_take]
        omega
      · rename_i h
        omega
  · rfl

/-- C3: within one `analyze_events` pass no two returned rules share a `sid`,
and no two returned rules were admitted under the same pattern key. -/
theorem claim_C3_unique_sids_and_keys (a : EVEAnalyzer) (events : List Event) :
    ((analyze_events a events).map Rule.sid).Nodup ∧
    ((analyze_events_keyed a events).map Prod.fst).Nodup := by
  have hok := analyze_phases_ok a events
  have hsub := analyze_keyed_sublist a events
  constructor
  · have hsidnodup :
        ((analyze_phases a events).generated_rules.map (fun p => p.2.sid)).Nodup := by
      rw [hok.2.1]
      exact List.nodup_range' _ _
    have hkeyed : ((analyze_events_keyed a events).map (fun p => p.2.sid)).Nodup :=
      List.Nodup.sublist (List.Sublist.map _ hsub) hsidnodup
    unfold analyze_events
    rw [List.map_map]
    exact hkeyed
  · exact List.Nodup.sublist (List.Sublist.map _ hsub) hok.2.2.1

/-- C7 counterexample: the claim's scenario does not exist — the
suspicious-port set has eight members, so there is no list of eleven
pairwise-distinct suspicious ports. -/
theorem claim_C7_no_eleven_suspicious_ports :
    ¬ ∃ ports : List Nat, ports.Nodup ∧ ports.length = 11 ∧
      ∀ p ∈ ports, p ∈ SUSPICIOUS_PORTS := by
  rintro ⟨ports, hnd, hlen, hsub⟩
  have hcard : ports.toFinset.card = 11 := by
    rw [List.toFinset_card_of_nodup hnd, hlen]
  have hsub2 : ports.toFinset ⊆ SUSPICIOUS_PORTS.toFinset := by
    intro x hx
    rw [List.mem_toFinset] at hx ⊢
    exact hsub x hx
  have hle := Finset.card_le_card hsub2
  rw [hcard] at hle
  have h8 : SUSPICIOUS_PORTS.toFinset.card = 8 := by decide
  omega

/-- C7 (amended): with 11 below-threshold flow events to one IP over 11
distinct ports of which the 8 suspicious ones are a subset, the cross-pattern
detector fires exactly once with `pattern = c7_ip`, the flow detector fires
for none of them, and in general the cross-pattern loop body emits exactly
one rule for an IP (under a fresh key) iff its connection count exceeds 10
and some destination port of that IP is suspicious. -/
theorem claim_C7_cross_pattern_detector :
    ((analyze_events {} c7_events).map (fun r => (r.pattern, r.tags)) =
      [(c7_ip, ["auto-generated", "cryptojacking", "suspicious-ip"])]) ∧
    (analyze_flow_events {} AnalyzerState.initial (eventsOfType "flow" c7_events)
      = AnalyzerState.initial) ∧
    (∀ (a : EVEAnalyzer) (d : List (String × List Nat)) (st : AnalyzerState)
        (ic : String × Nat),
      st.seen_patterns.contains ("suspicious:" ++ ic.1) = false →
      ((cross_step a d st ic).generated_rules.length =
          st.generated_rules.length + 1 ↔
        (10 < ic.2 ∧ ∃ p ∈ lookupPorts ic.1 d, p ∈ SUSPICIOUS_PORTS))) := by
  refine ⟨rfl, rfl, ?_⟩
  intro a d st ic hc
  unfold cross_step
  dsimp only
  split
  · rename_i hcond
    rw [if_neg (by rw [hc]; exact Bool.false_ne_true)]
    have hlen : (add_rule st ("suspicious:" ++ ic.1)
        (fun c => create_suspicious_ip_rule a c ic.1 ic.2 (lookupPorts ic.1 d))).generated_rules.length
        = st.generated_rules.length + 1 := by
      simp [add_rule, create_suspicious_ip_rule]
    refine iff_of_true hlen ⟨hcond.1, ?_⟩
    obtain ⟨p, hp, hdec⟩ := List.any_eq_true.mp hcond.2
    exact ⟨p, hp, of_decide_eq_true hdec⟩
  · rename_i hcond
    constructor
    · intro h
      omega
    · intro hr
      exfalso
      apply hcond
      obtain ⟨p, hp, hps⟩ := hr.2
      exact ⟨hr.1, List.any_eq_true.mpr ⟨p, hp, decide_eq_true hps⟩⟩

theorem claim_C7_cross_pattern_detector_witness :
    (AnalyzerState.initial.seen_patterns.contains ("suspicious:" ++ c7_ip) = false) ∧
    ((cross_step {} [(c7_ip, [3333])] AnalyzerState.initial
      (c7_ip, 11)).generated_rules.length =
        AnalyzerState.initial.generated_rules.length + 1) := by
  refine ⟨rfl, ?_⟩
  exact (claim_C7_cross_pattern_detector.2.2 {} [(c7_ip, [3333])]
    AnalyzerState.initial (c7_ip, 11) rfl).mpr
    ⟨by norm_num, 3333, by decide, by decide⟩

/-- C9: with an empty telemetry source, a metrics snapshot with
`bytes_sent = 50000` (any `bytes_recv`) makes the synthetic fallback emit at
least one flow event, and the analyzer synthesizes at least one rule from
the fallback's events. -/
theorem claim_C9_synthetic_fallback : ∀ recv : Nat,
    1 ≤ ((generate_synthetic_events_from_metrics ⟨50000, recv⟩).filter
      (fun e => e.getEventType = "flow")).length ∧
    1 ≤ (analyze_events {} (generate_synthetic_events_from_metrics ⟨50000, recv⟩)).length := by
  intro recv
  have hev : generate_synthetic_events_from_metrics ⟨50000, recv⟩ =
      [c9_flow_event recv, c9_http_event] := by
    unfold generate_synthetic_events_from_metrics c9_flow_event c9_http_event
    rw [if_pos (Or.inl (by norm_num)), if_pos (by norm_num)]
    rfl
  constructor
  · rw [hev]
    have h1 : (([c9_flow_event recv, c9_http_event] : List Event).filter
        (fun e => e.getEventType = "flow")).length = 1 := rfl
    rw [h1]
  · obtain ⟨⟨t, ht⟩, -⟩ := analyze_phases_grows {}
      (generate_synthetic_events_from_metrics ⟨50000, recv⟩)
    have hst1 : (analyze_http_events {} AnalyzerState.initial
        (eventsOfType "http"
          (generate_synthetic_events_from_metrics ⟨50000, recv⟩))).generated_rules.length
        = 1 := by
      rw [hev]
      rfl
    have hlen : 1 ≤ (analyze_phases {}
        (generate_synthetic_events_from_metrics ⟨50000, recv⟩)).generated_rules.length := by
      rw [ht, List.length_append, hst1]
      omega
    unfold analyze_events analyze_events_keyed
    rw [List.length_map]
    have hne : (generate_synthetic_events_from_metrics ⟨50000, recv⟩).isEmpty = false := by
      rw [hev]
      rfl
    rw [if_neg (by rw [hne]; exact Bool.false_ne_true)]
    dsimp only
    split
    · rename_i hlt
      rw [List.length_take]
      omega
    · rename_i hge
      omega

/-- C10: the sid counter restarts on every pass — whenever a pass emits at
least one rule, the pass's first rule carries `sid = base_sid + 1`, so two
passes of the same analyzer both start at the same sid. -/
theorem claim_C10_sid_restart (a : EVEAnalyzer) (evs1 evs2 : List Event)
    (r1 r2 : Rule)
    (h1 : (analyze_events a evs1).head? = some r1)
    (h2 : (analyze_events a evs2).head? = some r2) :
    r1.sid = a.base_sid + 1 ∧ r2.sid = a.base_sid + 1 :=
  ⟨analyze_head_sid h1, analyze_head_sid h2⟩

theorem claim_C10_sid_restart_witness :
    ((analyze_events {} [mkHttpHostEvent "pool.minexmr.com"]).head? = some c10_rule) ∧
    c10_rule.sid = 2000000 + 1 := by
  refine ⟨rfl, ?_⟩
  exact (claim_C10_sid_restart {} [mkHttpHostEvent "pool.minexmr.com"]
    [mkHttpHostEvent "pool.minexmr.com"] c10_rule c10_rule rfl rfl).1

/-! ### Substring monotonicity (for the coverage keyword test) -/

theorem charsHasPrefix_append {n : List Char} :
    ∀ {l : List Char} (l2 : List Char), charsHasPrefix n l = true →
      charsHasPrefix n (l ++ l2) = true := by
  induction n with
  | nil => intro l l2 _; rfl
  | cons c cs ih =>
    intro l l2 h
    cases l with
    | nil => simp [charsHasPrefix] at h
    | cons x xs =>
      simp only [charsHasPrefix, Bool.and_eq_true, decide_eq_true_eq] at h
      simp only [List.cons_append, charsHasPrefix, Bool.and_eq_true,
        decide_eq_true_eq]
      exact ⟨h.1, ih l2 h.2⟩

theorem charsContains_append_left {n : List Char} :
    ∀ {l : List Char} (l2 : List Char), charsContains n l = true →
      charsContains n (l ++ l2) = true := by
  intro l
  induction l with
  | nil =>
    intro l2 h
    simp only [charsContains] at h
    cases l2 with
    | nil => exact h
    | cons y ys =>
      cases n with
      | nil => rfl
      | cons c cs => simp [charsHasPrefix] at h
  | cons x xs ih =>
    intro l2 h
    simp only [charsContains, Bool.or_eq_true] at h
    rcases h with h | h
    · simp only [List.cons_append, charsContains, Bool.or_eq_true]
      exact Or.inl (charsHasPrefix_append l2 h)
    · simp only [List.cons_append, charsContains, Bool.or_eq_true]
      exact Or.inr (ih l2 h)

theorem pyIn_append_left {n s : String} (t : String) (h : pyIn n s = true) :
    pyIn n (s ++ t) = true := by
  unfold pyIn at h ⊢
  rw [String.data_append]
  exact charsContains_append_left _ h

theorem pyLower_append (a b : String) :
    pyLower (a ++ b) = pyLower a ++ pyLower b := by
  unfold pyLower
  cases a with
  | mk da =>
    cases b with
    | mk db =>
      show String.mk ((String.mk da ++ String.mk db).data.map Char.toLower) = _
      rw [String.data_append]
      rw [List.map_append]
      rfl

/-! ### The verified properties of the monitor -/

/-- A kept read is the parse of its line. -/
theorem readRecentLine_keep {th : Int} {line : String} {e : Json}
    (h : readRecentLine th line = LineRead.keep e) : pyJsonLoads line = some e := by
  unfold readRecentLine at h
  cases hp : pyJsonLoads line with
  | none => rw [hp] at h; simp at h
  | some event =>
    rw [hp] at h
    dsimp only at h
    repeat' split at h
    all_goals simp_all

theorem readKeeps_sound {th : Int} {lastN : List String} {e : Json}
    (he : e ∈ readKeeps th lastN) :
    ∃ line ∈ lastN, pyJsonLoads line = some e := by
  unfold readKeeps at he
  dsimp only at he
  split at he
  · simp at he
  · rw [List.mem_reverse, List.mem_filterMap] at he
    obtain ⟨r, hr, hkeep⟩ := he
    rw [List.mem_map] at hr
    obtain ⟨line, hline, hrl⟩ := hr
    rw [List.mem_reverse] at hline
    refine ⟨line, hline, ?_⟩
    cases r with
    | keep e2 =>
      simp only [Option.some.injEq] at hkeep
      subst hkeep
      exact readRecentLine_keep hrl
    | skip => simp at hkeep
    | drop => simp at hkeep
    | err => simp at hkeep

/-- Every event the detection-time reader returns is the JSON parse of one
of the file's stripped lines: malformed lines never contribute. -/
theorem read_all_recent_events_sound :
    ∀ (content : String) (now : Int) (maxe win : Nat) (e : Json),
      e ∈ read_all_recent_events (some content) now maxe win →
      ∃ line ∈ (pyLines content).map pyStrip, pyJsonLoads line = some e := by
  intro content now maxe win e he
  unfold read_all_recent_events at he
  dsimp only at he
  obtain ⟨line, hline, hp⟩ := readKeeps_sound he
  refine ⟨line, ?_, hp⟩
  have h1 : line ∈ (((pyLines content).map pyStrip).filter (fun l => l ≠ "")) := by
    revert hline
    split
    · exact fun h => h
    · exact fun h => List.mem_of_mem_drop h
  exact List.mem_of_mem_filter h1

/-- C4 counterexample: for an array-encoded log the general reader
(`filter_suricata_events`, which does try a whole-document parse first)
returns both events, but the reader used at detection time
(`_read_all_recent_events`) parses line by line only and silently drops the
first event (its line carries the array's element separator). -/
theorem claim_C4_detection_reader_rejects_array :
    filter_suricata_events (some c4_array_content) DEFAULT_EVENT_TYPES =
      [c4_http_obj, c4_flow_obj] ∧
    read_all_recent_events (some c4_array_content) 0 100 10 = [c4_flow_obj] :=
  ⟨rfl, rfl⟩

/-- C4 (amended): `filter_suricata_events` auto-detects both encodings
(whole-document parse, then per-line fallback; a lone object is wrapped),
while the detection-time reader `_read_all_recent_events` accepts only
line-delimited JSON; in both, malformed lines are skipped without raising
and a missing file yields an empty sequence. -/
theorem claim_C4_reader_formats :
    (∀ (now : Int) (maxe win : Nat), read_all_recent_events none now maxe win = []) ∧
    (∀ types : List String, filter_suricata_events none types = []) ∧
    (filter_suricata_events (some c4_jsonl_content) DEFAULT_EVENT_TYPES =
      [c4_http_obj, c4_flow_obj]) ∧
    (read_all_recent_events (some c4_jsonl_content) 0 100 10 =
      [c4_http_obj, c4_flow_obj]) ∧
    (filter_suricata_events (some c4_array_content) DEFAULT_EVENT_TYPES =
      [c4_http_obj, c4_flow_obj]) ∧
    (filter_suricata_events (some c4_single_obj_content) DEFAULT_EVENT_TYPES =
      [c4_http_obj]) ∧
    (∀ (content : String) (now : Int) (maxe win : Nat) (e : Json),
      e ∈ read_all_recent_events (some content) now maxe win →
      ∃ line ∈ (pyLines content).map pyStrip, pyJsonLoads line = some e) :=
  ⟨fun _ _ _ => rfl, fun _ => rfl, rfl, rfl, rfl, rfl,
   read_all_recent_events_sound⟩

theorem claim_C4_reader_formats_witness :
    c4_flow_obj ∈ read_all_recent_events (some c4_array_content) 0 100 10 ∧
    ∃ line ∈ (pyLines c4_array_content).map pyStrip,
      pyJsonLoads line = some c4_flow_obj := by
  have hm : c4_flow_obj ∈ read_all_recent_events (some c4_array_content) 0 100 10 := by
    rw [show read_all_recent_events (some c4_array_content) 0 100 10 = [c4_flow_obj] from rfl]
    exact List.mem_singleton.mpr rfl
  exact ⟨hm, claim_C4_reader_formats.2.2.2.2.2.2 c4_array_content 0 100 10 c4_flow_obj hm⟩

/-- C5: an alert event whose numeric timestamp is nonzero and not older than
the window and whose signature contains "xmr" makes the scan match; an alert
older than the window never matches; end to end,
`check_suricata_alerts` is true for the in-window log and false for the
out-of-window log with the same alert text. -/
theorem claim_C5_coverage_check :
    (∀ (now threshold t : Int) (sig : String),
      t ≠ 0 → threshold ≤ t → pyIn "xmr" (pyLower sig) = true →
      checkAlertEvent now threshold (mkAlertJson t sig) = LineCheck.matched) ∧
    (∀ (now threshold t : Int) (sig : String), t < threshold →
      checkAlertEvent now threshold (mkAlertJson t sig) = LineCheck.nomatch) ∧
    check_suricata_alerts (some c5_content_in) 1000 60 = true ∧
    check_suricata_alerts (some c5_content_multi) 1000 60 = true ∧
    check_suricata_alerts (some c5_content_out) 1000 60 = false := by
  refine ⟨?_, ?_, rfl, rfl, rfl⟩
  · intro now threshold t sig ht hth hx
    have h1 : checkAlertEvent now threshold (mkAlertJson t sig) =
        (if t ≠ 0 ∧ threshold ≤ t then alertKeywordCheck (mkAlertJson t sig)
         else LineCheck.nomatch) := rfl
    rw [h1, if_pos ⟨ht, hth⟩]
    have h2 : alertKeywordCheck (mkAlertJson t sig) =
        (if crypto_keywords.any
            (fun keyword => pyIn keyword (pyLower (sig ++ " " ++ "" ++ " " ++ sig)))
         then LineCheck.matched else LineCheck.nomatch) := rfl
    rw [h2, if_pos ?_]
    apply List.any_eq_true.mpr
    refine ⟨"xmr", by decide, ?_⟩
    simp only [String.append_assoc]
    rw [pyLower_append]
    exact pyIn_append_left _ hx
  · intro now threshold t sig hlt
    have h1 : checkAlertEvent now threshold (mkAlertJson t sig) =
        (if t ≠ 0 ∧ threshold ≤ t then alertKeywordCheck (mkAlertJson t sig)
         else LineCheck.nomatch) := rfl
    rw [h1, if_neg (fun hc => absurd hc.2 (by omega))]

theorem claim_C5_coverage_check_witness :
    checkAlertEvent 1000 940 (mkAlertJson 990 "XMR CoinMiner") = LineCheck.matched ∧
    checkAlertEvent 1000 940 (mkAlertJson 100 "XMR CoinMiner") = LineCheck.nomatch :=
  ⟨claim_C5_coverage_check.1 1000 940 990 "XMR CoinMiner" (by decide) (by decide) rfl,
   claim_C5_coverage_check.2.1 1000 940 100 "XMR CoinMiner" (by decide)⟩

/-- C6: whenever the coverage check is positive, the detection cycle stops
after bumping the detection counter — the effect trace is empty: no
telemetry read, no synthetic events, no rules generated, no rule-file or
backup writes, no backend posts. -/
theorem claim_C6_coverage_aborts_cycle :
    (∀ (env : MonitorEnv) (ms : MonitorState),
      check_suricata_alerts env.eve_file env.now 120 = true →
      handle_mining_detection env ms =
        ({ detection_count := ms.detection_count + 1,
           last_detection_time := some env.now }, noActions)) ∧
    (∀ (env : MonitorEnv) (ms : MonitorState),
      check_suricata_alerts env.eve_file env.now 120 = false →
      (handle_mining_detection env ms).2.telemetry_read = true) := by
  constructor
  · intro env ms h
    unfold handle_mining_detection
    dsimp only
    rw [if_pos h]
  · intro env ms h
    unfold handle_mining_detection
    dsimp only
    rw [if_neg (by rw [h]; exact Bool.false_ne_true)]
    repeat' split
    all_goals rfl

theorem claim_C6_coverage_aborts_cycle_witness :
    (check_suricata_alerts c6_env.eve_file c6_env.now 120 = true) ∧
    (handle_mining_detection c6_env { detection_count := 0, last_detection_time := none } =
      ({ detection_count := 1, last_detection_time := some 1000 }, noActions)) ∧
    (check_suricata_alerts c6_env_uncovered.eve_file c6_env_uncovered.now 120 = false) ∧
    ((handle_mining_detection c6_env_uncovered
      { detection_count := 0, last_detection_time := none }).2.telemetry_read = true) := by
  refine ⟨rfl, ?_, rfl, ?_⟩
  · exact claim_C6_coverage_aborts_cycle.1 c6_env
      { detection_count := 0, last_detection_time := none } rfl
  · exact claim_C6_coverage_aborts_cycle.2 c6_env_uncovered
      { detection_count := 0, last_detection_time := none } rfl

/-! ### C8: the backend publish loop -/

theorem sendLoop_counts (resp : Nat → Option Nat) :
    ∀ (l : List Rule) (i : Nat),
      sendLoop resp i l = ((List.range' i l.length).filter (respOk resp)).length := by
  intro l
  induction l with
  | nil => intro i; rfl
  | cons x rest ih =>
    intro i
    rw [List.length_cons, List.range'_succ, List.filter_cons]
    unfold sendLoop
    cases hr : resp i with
    | none =>
      dsimp only
      have hok : respOk resp i = false := by simp [respOk, hr]
      rw [hok]
      simpa using ih (i + 1)
    | some st =>
      dsimp only
      by_cases hok : st = 200 ∨ st = 201
      · have h1 : respOk resp i = true := by
          simp [respOk, hr]
          exact hok
        rw [h1, if_pos hok]
        simp only [eq_self_iff_true, if_true, List.length_cons]
        rw [ih (i + 1)]
        omega
      · have h1 : respOk resp i = false := by
          simp [respOk, hr]
          push_neg at hok
          exact hok
        rw [h1, if_neg hok]
        simp only [Bool.false_eq_true, if_false]
        rw [ih (i + 1)]
        omega

/-- C8 (amended): rules are posted independently — the returned
`success_count` equals the number of positions whose HTTP outcome is status
200 or 201, regardless of failures or connection errors at other
positions. -/
theorem claim_C8_success_count :
    ∀ (resp : Nat → Option Nat) (rules : List Rule),
      send_rules_to_backend resp rules =
        ((List.range rules.length).filter (respOk resp)).length := by
  intro resp rules
  unfold send_rules_to_backend
  split
  · rename_i he
    rw [List.isEmpty_iff] at he
    subst he
    rfl
  · rw [sendLoop_counts, List.range_eq_range']

/-- C8 counterexample: a 204 response is a 2xx status, yet the code counts
it as a failure — `success_count` is 0 where the claim's "2xx/201" reading
counts 1. -/
theorem claim_C8_204_not_counted :
    send_rules_to_backend (fun _ => some 204) [c8_rule] = 0 ∧
    ((List.range 1).filter (resp2xx (fun _ => some 204))).length = 1 :=
  ⟨rfl, rfl⟩

end CryptoPipeline
